import Mathlib

/-!
Verification of the LCT_hackaton review-scraping and enrichment pipeline.

Shallow embedding of the Python sources:
  * `app/services/ml.py`            — sentiment analysis, JSON response parsing, embeddings
  * `app/services/review_parser.py` — sravni.ru and banki.ru scrapers, dedup, CSV naming
  * `app/api/routes/parser.py`      — the POST /parser/run route
  * `app/schemas/parser.py`         — job request/result schemas

Python strings are modelled as `List Char`; machine floats as `ℚ`; datetimes as `ℤ`
timestamps (only their ordering matters to the code under study).  External effects
(HTTP, sleeping, the filesystem, TextBlob, `datetime` parsing/formatting, HTML
normalisation) enter as explicit function parameters; everything the claims quantify
over is translated from the source.
-/

namespace LCT

/-! ## Python string helpers -/

/-- Characters removed by Python `str.strip()` (the ASCII whitespace set). -/
def py_is_space (c : Char) : Bool :=
  c = ' ' || c = '\t' || c = '\n' || c = '\r' || c = '\x0b' || c = '\x0c'

/-- Left part of `str.strip()`. -/
def strip_left (s : List Char) : List Char := s.dropWhile py_is_space

/-- Right part of `str.strip()`. -/
def strip_right (s : List Char) : List Char := (s.reverse.dropWhile py_is_space).reverse

/-- Python `str.strip()`. -/
def py_strip (s : List Char) : List Char := strip_right (strip_left s)

/-- Python `str.lower()` (ASCII case folding, which is all `.csv` needs). -/
def py_lower (s : List Char) : List Char := s.map Char.toLower

/-- Split on `/` (the POSIX path separator), keeping empty components. -/
def split_slash : List Char → List (List Char)
  | [] => [[]]
  | c :: rest =>
    if c = '/' then [] :: split_slash rest
    else
      match split_slash rest with
      | comp :: comps => (c :: comp) :: comps
      | [] => [[c]]

/-- `pathlib.PurePosixPath(name).name`: components are split on `/`, empty and `.`
components are dropped, and the last remaining component is the name (`..` is kept,
as pathlib keeps it). -/
def path_name (s : List Char) : List Char :=
  match ((split_slash s).filter (fun comp => !comp.isEmpty && comp != ['.'])).getLast? with
  | some comp => comp
  | none => []

/-- Projection out of a Python call that may raise: the normal return value. -/
def except_ok? : Except ε α → Option α
  | .ok x => some x
  | .error _ => none

/-- Projection out of a Python call that may raise: the raised error. -/
def except_err? : Except ε α → Option ε
  | .ok _ => none
  | .error e => some e

/-- The `{` character (kept out of character-literal position). -/
def lbrace : Char := Char.ofNat 123

/-- The `}` character. -/
def rbrace : Char := Char.ofNat 125

/-! ## Strict JSON values and `json.loads`

`_parse_model_response` feeds candidate strings to Python's `json.loads`, which is a
strict parser: no trailing commas, no comments, no single quotes.  The model below
implements that grammar (objects, arrays, strings with escapes, numbers, literals)
over `List Char` with explicit fuel.  The stdlib's `NaN`/`Infinity` extension is not
modelled; no input in this development uses it. -/

inductive PyJson where
  | null
  | bool (b : Bool)
  | num (q : ℚ)
  | str (s : List Char)
  | arr (elems : List PyJson)
  | obj (fields : List (List Char × PyJson))

/-- JSON insignificant whitespace. -/
def json_ws (c : Char) : Bool := c = ' ' || c = '\t' || c = '\n' || c = '\r'

/-- Skip insignificant whitespace. -/
def skip_ws (s : List Char) : List Char := s.dropWhile json_ws

/-- Value of one hexadecimal digit (codepoint arithmetic: `0` is 48, `a` is 97,
`A` is 65). -/
def hex_digit_val (c : Char) : Option Nat :=
  if '0' ≤ c && c ≤ '9' then some (c.toNat - 48)
  else if 'a' ≤ c && c ≤ 'f' then some (c.toNat - 97 + 10)
  else if 'A' ≤ c && c ≤ 'F' then some (c.toNat - 65 + 10)
  else none

/-- Single-character JSON string escapes. -/
def esc_char : Char → Option Char
  | '"' => some '"'
  | '\\' => some '\\'
  | '/' => some '/'
  | 'b' => some (Char.ofNat 8)
  | 'f' => some (Char.ofNat 12)
  | 'n' => some '\n'
  | 'r' => some '\r'
  | 't' => some '\t'
  | _ => none

/-- Parse the body of a JSON string (the opening quote already consumed), returning
the decoded characters and the rest of the input.  Unescaped control characters are
rejected, as `json.loads` rejects them. -/
def parse_json_string : List Char → Option (List Char × List Char)
  | [] => none
  | c :: rest =>
    if c = '"' then some ([], rest)
    else if c = '\\' then
      match rest with
      | [] => none
      | e :: rest2 =>
        if e = 'u' then
          match rest2 with
          | h1 :: h2 :: h3 :: h4 :: rest3 =>
            match hex_digit_val h1, hex_digit_val h2, hex_digit_val h3, hex_digit_val h4 with
            | some a, some b, some c2, some d =>
              match parse_json_string rest3 with
              | some (tail, rem) =>
                some (Char.ofNat (a * 4096 + b * 256 + c2 * 16 + d) :: tail, rem)
              | none => none
            | _, _, _, _ => none
          | _ => none
        else
          match esc_char e with
          | some ec =>
            match parse_json_string rest2 with
            | some (tail, rem) => some (ec :: tail, rem)
            | none => none
          | none => none
    else if c.toNat < 32 then none
    else
      match parse_json_string rest with
      | some (tail, rem) => some (c :: tail, rem)
      | none => none

/-- ASCII decimal digit test. -/
def is_digit (c : Char) : Bool := '0' ≤ c && c ≤ '9'

/-- Numeric value of a digit string. -/
def digits_to_nat (ds : List Char) : Nat :=
  ds.foldl (fun acc c => acc * 10 + (c.toNat - '0'.toNat)) 0

/-- Parse a JSON number token (`-?(0|[1-9][0-9]*)(\.[0-9]+)?([eE][+-]?[0-9]+)?`),
returning its rational value and the rest of the input. -/
def parse_json_number (s : List Char) : Option (ℚ × List Char) :=
  let signed := match s with
    | '-' :: rest => (true, rest)
    | _ => (false, s)
  let neg := signed.1
  let s1 := signed.2
  match s1 with
  | [] => none
  | d :: _ =>
    if !is_digit d then none
    else
      let intDigits := if d = '0' then ['0'] else s1.takeWhile is_digit
      let s2 := s1.drop intDigits.length
      let fracStep :=
        match s2 with
        | '.' :: rest =>
          let f := rest.takeWhile is_digit
          if f.isEmpty then (([] : List Char), s2) else (f, rest.drop f.length)
        | _ => (([] : List Char), s2)
      let fracDigits := fracStep.1
      let s3 := fracStep.2
      let expStep : Option (Int × List Char) :=
        match s3 with
        | c :: rest =>
          if c = 'e' || c = 'E' then
            let signRest := match rest with
              | '+' :: rr => ((1 : Int), rr)
              | '-' :: rr => ((-1 : Int), rr)
              | _ => ((1 : Int), rest)
            let eds := signRest.2.takeWhile is_digit
            if eds.isEmpty then none
            else some (signRest.1 * (digits_to_nat eds : Int), signRest.2.drop eds.length)
          else none
        | [] => none
      let expPair := match expStep with
        | some p => p
        | none => ((0 : Int), s3)
      let mantissa : Int :=
        (digits_to_nat intDigits : Int) * (10 : Int) ^ fracDigits.length
          + (digits_to_nat fracDigits : Int)
      let num : Int := (if neg then -mantissa else mantissa) * (10 : Int) ^ expPair.1.toNat
      let den : Nat := 10 ^ fracDigits.length * 10 ^ (-expPair.1).toNat
      some (mkRat num den, expPair.2)

mutual

/-- Parse one JSON value. -/
def parse_json_value : Nat → List Char → Option (PyJson × List Char)
  | 0, _ => none
  | fuel + 1, s =>
    match skip_ws s with
    | [] => none
    | c :: rest =>
      if c = lbrace then parse_json_members fuel rest []
      else if c = '[' then parse_json_elements fuel rest []
      else if c = '"' then
        match parse_json_string rest with
        | some (str, rem) => some (.str str, rem)
        | none => none
      else if c = 't' then
        if rest.take 3 = "rue".data then some (.bool true, rest.drop 3) else none
      else if c = 'f' then
        if rest.take 4 = "alse".data then some (.bool false, rest.drop 4) else none
      else if c = 'n' then
        if rest.take 3 = "ull".data then some (.null, rest.drop 3) else none
      else
        match parse_json_number (c :: rest) with
        | some (q, rem) => some (.num q, rem)
        | none => none

/-- Parse object members after `{` (strict: a comma must be followed by a member, so
trailing commas fail). -/
def parse_json_members :
    Nat → List Char → List (List Char × PyJson) → Option (PyJson × List Char)
  | 0, _, _ => none
  | fuel + 1, s, acc =>
    match skip_ws s with
    | c :: rest =>
      if c = rbrace && acc.isEmpty then some (.obj [], rest)
      else if c = '"' then
        match parse_json_string rest with
        | some (key, rem) =>
          match skip_ws rem with
          | ':' :: rem2 =>
            match parse_json_value fuel rem2 with
            | some (v, rem3) =>
              match skip_ws rem3 with
              | cc :: rem4 =>
                if cc = ',' then parse_json_members fuel rem4 (acc ++ [(key, v)])
                else if cc = rbrace then some (.obj (acc ++ [(key, v)]), rem4)
                else none
              | [] => none
            | none => none
          | _ => none
        | none => none
      else none
    | [] => none

/-- Parse array elements after `[` (strict about trailing commas). -/
def parse_json_elements : Nat → List Char → List PyJson → Option (PyJson × List Char)
  | 0, _, _ => none
  | fuel + 1, s, acc =>
    match skip_ws s with
    | c :: rest =>
      if c = ']' && acc.isEmpty then some (.arr [], rest)
      else
        match parse_json_value fuel (c :: rest) with
        | some (v, rem) =>
          match skip_ws rem with
          | cc :: rem2 =>
            if cc = ',' then parse_json_elements fuel rem2 (acc ++ [v])
            else if cc = ']' then some (.arr (acc ++ [v]), rem2)
            else none
          | [] => none
        | none => none
    | [] => none

end

/-- Python `json.loads`: parse one value and require only whitespace after it.  The
fuel `3 * length + 3` dominates the recursion, which consumes at least one character
for every three fuel steps. -/
def json_loads (s : List Char) : Option PyJson :=
  match parse_json_value (3 * s.length + 3) s with
  | some (v, rest) => if (skip_ws rest).isEmpty then some v else none
  | none => none

/-! ## `app/services/ml.py` — sentiment analysis

`TextBlob(text).sentiment.polarity` and the OpenAI clients are external; they enter
as parameters.  Floats are modelled as `ℚ`. -/

/-- ASCII letter or digit, the `[a-zA-Z0-9]` class of the fence-stripping regex. -/
def is_ascii_alnum (c : Char) : Bool :=
  ('a' ≤ c && c ≤ 'z') || ('A' ≤ c && c ≤ 'Z') || ('0' ≤ c && c ≤ '9')

/-- The greedy `re.search(r"\x7b.*\x7d", s, re.S)` of `_parse_model_response`: the
span from the first `\x7b` to the last `\x7d`, when the latter comes after the
former. -/
def brace_span (s : List Char) : Option (List Char) :=
  let p := (s.takeWhile (fun c => c != lbrace)).length
  let rtail := (s.reverse.takeWhile (fun c => c != rbrace)).length
  if p < s.length - rtail then some ((s.take (s.length - rtail)).drop p) else none

/-- Errors raised by `_parse_model_response` (`ValueError` in the source). -/
inductive MlParseErr where
  | empty_response
  | unparseable
deriving DecidableEq

/-- `re.sub(r"```$", "", s)`: remove one trailing ```` ``` ```` when present. -/
def strip_trailing_fence (s : List Char) : List Char :=
  if "```".data.isSuffixOf s then s.take (s.length - 3) else s

/-- The fence-stripping block of `_parse_model_response` (`if stripped.startswith`):
remove a leading ```` ``` ```` plus its `[a-zA-Z0-9]*` language tag
(`re.sub(r"^```[a-zA-Z0-9]*", "", s)`), remove one trailing ```` ``` ````, and
strip the remains. -/
def strip_fences (stripped : List Char) : List Char :=
  if "```".data.isPrefixOf stripped then
    py_strip (strip_trailing_fence ((stripped.drop 3).dropWhile is_ascii_alnum))
  else stripped

/-- The candidate loop of `_parse_model_response`: `json.loads` on the stripped
text first, then on its largest braced span; the first success wins, and if both
fail the `ValueError` is raised.  There is no repair step between the attempts. -/
def try_candidates (stripped : List Char) : Except MlParseErr PyJson :=
  match json_loads stripped with
  | some v => .ok v
  | none =>
    match brace_span stripped with
    | some candidate =>
      match json_loads candidate with
      | some v => .ok v
      | none => .error .unparseable
    | none => .error .unparseable

/-- `ml._parse_model_response`: reject empty content, strip the outer whitespace
and any fenced code block, then run the candidate loop. -/
def parse_model_response (content : List Char) : Except MlParseErr PyJson :=
  if content.isEmpty then .error .empty_response
  else try_candidates (strip_fences (py_strip content))

/-- `ml.SentimentPayload` (a pydantic model): `sentiment: str`,
`sentiment_score: Optional[float]`, `summary: Optional[str]`,
`highlights: List[str] = []`.  No field carries a range constraint. -/
structure SentimentPayload where
  sentiment : List Char
  sentiment_score : Option ℚ
  summary : Option (List Char)
  highlights : List (List Char)
deriving DecidableEq

/-- Python `dict` lookup on parsed JSON object fields (a repeated key keeps the last
occurrence, as `json.loads` builds the dict by successive assignment). -/
def dict_get (fields : List (List Char × PyJson)) (key : List Char) : Option PyJson :=
  (fields.reverse.find? (fun kv => kv.1 == key)).map Prod.snd

/-- A JSON array of strings, as pydantic validates `List[str]`. -/
def as_str_list : PyJson → Option (List (List Char))
  | .arr xs => xs.mapM (fun j => match j with | .str s => some s | _ => none)
  | _ => none

/-- `SentimentPayload.model_validate`: field-by-field validation of a parsed JSON
object.  Extra keys are ignored (pydantic's default); a missing `sentiment` or a
field of the wrong shape fails. -/
def sentiment_payload_validate (j : PyJson) : Option SentimentPayload :=
  match j with
  | .obj fields => do
    let sj ← dict_get fields "sentiment".data
    let s ← (match sj with | .str s => some s | _ => none)
    let score ← (match dict_get fields "sentiment_score".data with
      | none => some none
      | some .null => some none
      | some (.num q) => some (some q)
      | some _ => none)
    let summary ← (match dict_get fields "summary".data with
      | none => some none
      | some .null => some none
      | some (.str t) => some (some t)
      | some _ => none)
    let highlights ← (match dict_get fields "highlights".data with
      | none => some []
      | some .null => none
      | some hj => as_str_list hj)
    some ⟨s, score, summary, highlights⟩
  | _ => none

/-- `SentimentPayload.clean`: validate, then require the label to be one of the
three allowed strings.  Note that `sentiment_score` passes through unchecked. -/
def sentiment_payload_clean (j : PyJson) : Option SentimentPayload := do
  let p ← sentiment_payload_validate j
  if p.sentiment == "positive".data || p.sentiment == "negative".data
      || p.sentiment == "neutral".data then
    some p
  else none

/-- The shape of the dict returned by `analyze_text_async` / `_fallback_analysis`. -/
structure MlResult where
  sentiment : List Char
  sentiment_score : Option ℚ
  summary : Option (List Char)
  embedding : Option (List ℚ)
  highlights : List (List Char)
deriving DecidableEq

/-- `ml._fallback_analysis`.  `polarity` is `TextBlob(text).sentiment.polarity`,
supplied as a parameter because TextBlob is an external library; everything after
that line is translated directly. -/
def fallback_analysis (text : List Char) (polarity : ℚ) : MlResult :=
  let label :=
    if polarity > mkRat 1 10 then "positive".data
    else if polarity < mkRat (-1) 10 then "negative".data
    else "neutral".data
  { sentiment := label
  , sentiment_score := some polarity
  , summary := some (text.take 280)
  , embedding := none
  , highlights := [] }

/-- The success branch of `analyze_text_async` (lines 159-180): parse the chat
completion content, clean it, and build the result dict around the precomputed
embedding.  The retry/backoff branches return `none` here and are handled by the
fallback, which is modelled separately by `fallback_analysis`. -/
def analyze_llm_success (content : List Char) (embedding : Option (List ℚ)) :
    Option MlResult :=
  match parse_model_response content with
  | .error _ => none
  | .ok j =>
    (sentiment_payload_clean j).map (fun p =>
      { sentiment := p.sentiment
      , sentiment_score := p.sentiment_score
      , summary := p.summary
      , embedding := embedding
      , highlights := p.highlights })

/-! ## `ml.generate_embeddings_async` — the embedding micro-batch loop

The embedding API call `create_embeddings` is a parameter: `none` models the call
raising (any exception — the `except Exception` arm), `some data` models a response
whose `data` list carries `(index, embedding)` items in arbitrary order. -/

/-- `texts[start:start+batch_size]` chunks for `start in range(0, len, batch_size)`.
The predecessor encoding (`bs_pred + 1` is the batch size) makes the recursion
well-founded without a positivity side condition; the caller's batch size is
`max 1 _` in the source, hence at least 1. -/
def chunk_list (bs_pred : Nat) : List α → List (List α)
  | [] => []
  | x :: xs =>
    (x :: xs).take (bs_pred + 1) :: chunk_list bs_pred ((x :: xs).drop (bs_pred + 1))
termination_by l => l.length
decreasing_by
  simp only [List.length_drop, List.length_cons]
  omega

/-- Key order used by `sorted(response.data, key=lambda item: item.index)`. -/
def key_le (p q : Nat × α) : Prop := p.1 ≤ q.1

instance : DecidableRel (α := Nat × α) key_le := fun p q => by
  unfold key_le; infer_instance

instance : IsTotal (Nat × α) key_le := ⟨fun p q => Nat.le_total p.1 q.1⟩

instance : IsTrans (Nat × α) key_le := ⟨fun _ _ _ h1 h2 => Nat.le_trans h1 h2⟩

/-- `sorted(data, key=lambda item: item.index)` (a stable sort on the index). -/
def sort_by_index (l : List (Nat × α)) : List (Nat × α) := l.insertionSort key_le

/-- The accumulated `embeddings` list built by the chunk loop of
`generate_embeddings_async`: per chunk, a raising API call is swallowed and
contributes `None` per item (`except Exception: ... extend([None] * len(chunk))`);
a response is re-ordered by its declared per-item index
(`sorted(response.data, key=lambda item: item.index)`). -/
def chunk_block (create_embeddings : List (List Char) → Option (List (Nat × α)))
    (chunk : List (List Char)) : List (Option α) :=
  match create_embeddings chunk with
  | none => List.replicate chunk.length (none : Option α)
  | some data => (sort_by_index data).map (fun p => some p.2)

def embeddings_body (batch_size : Nat)
    (create_embeddings : List (List Char) → Option (List (Nat × α)))
    (texts : List (List Char)) : List (Option α) :=
  ((chunk_list (max 1 batch_size - 1) texts).map (chunk_block create_embeddings)).flatten

/-- `ml.generate_embeddings_async`.  `has_key` is `_llm_available()`;
`batch_size` is `settings.FOUNDATION_EMBEDDING_BATCH_SIZE`.  The final padding
(`if len(embeddings) < len(texts)`) is the source's own guard. -/
def generate_embeddings_async (has_key : Bool) (batch_size : Nat)
    (create_embeddings : List (List Char) → Option (List (Nat × α)))
    (texts : List (List Char)) : List (Option α) :=
  if texts.isEmpty then []
  else if !has_key then List.replicate texts.length none
  else
    embeddings_body batch_size create_embeddings texts
      ++ List.replicate
          (texts.length - (embeddings_body batch_size create_embeddings texts).length)
          none

/-- `EmbeddingBatcher._runner`'s dispatch step (`app/services/embeddings.py`): one
batch is sent to the embedding call; if the call raises, the batch resolves to
`[None] * len(batch)` instead of propagating the error. -/
def runner_dispatch (call : List (List Char) → Except Unit (List (Option α)))
    (batch : List (List Char)) : List (Option α) :=
  match call batch with
  | .error _ => List.replicate batch.length none
  | .ok embeddings => embeddings

/-! ## `app/services/review_parser.py`

Datetimes are `ℤ` timestamps.  `datetime.fromisoformat`, `datetime.strptime` and
`datetime.isoformat` are external; they enter as parameters, wrapped by the
source's own guards (`_parse_datetime`).  HTTP responses enter as a function from
page index (sravni) or attempt number (banki) to an abstract response. -/

/-- Truthiness of an optional string (`if value:` in Python). -/
def opt_truthy : Option (List Char) → Bool
  | some s => !s.isEmpty
  | none => false

/-- Python `a or b` for an optional/empty string with a default. -/
def str_or (v : Option (List Char)) (d : List Char) : List Char :=
  match v with
  | some s => if s.isEmpty then d else s
  | none => d

/-- First truthy string of a `a or b or ""` chain. -/
def first_truthy : List (List Char) → List Char
  | [] => []
  | s :: rest => if s.isEmpty then first_truthy rest else s

/-- One persisted review row — the 13-column CSV schema shared by both parsers. -/
structure Row where
  url : List Char
  review_date : List Char
  user_name : List Char
  user_city : List Char
  user_city_full : List Char
  review_title : List Char
  review_text : List Char
  review_status : List Char
  rating : List Char
  review_tag : List Char
  bank_name : List Char
  is_bank_ans : Bool
  review_id : List Char
deriving DecidableEq

/-- Errors raised as `ParserServiceError` (each constructor corresponds to one
`raise` site in the source). -/
inductive PErr where
  | page_size_not_positive
  | max_pages_not_positive
  | invalid_delay_range
  | unexpected_response (code : Nat) (page : Nat)
  | json_decode_failed (page : Nat)
  | no_reviews_parsed
  | empty_output_filename
  | unexpected_banki_response (code : Nat) (page : Nat)
  | banki_fetch_exhausted (page : Nat)
  | csv_not_found
  | csv_not_regular_file
deriving DecidableEq

/-- `ParseResult` as far as the claims observe it (`csv_path` and `metadata` are
echoes of the filesystem and the input parameters). -/
structure ParseResultM where
  source : List Char
  filename : List Char
  rows_written : Nat
  rows : List Row
deriving DecidableEq

/-- `_ensure_csv_filename` (identical in `SravniParser` and `BankiRuParser`):
strip, reject an all-whitespace name, keep only the base name, and append `.csv`
unless the lowercased name already ends in it. -/
def ensure_csv_filename (filename : List Char) : Except PErr (List Char) :=
  if (py_strip filename).isEmpty then .error .empty_output_filename
  else if ".csv".data.isSuffixOf (py_lower (path_name (py_strip filename))) then
    .ok (path_name (py_strip filename))
  else .ok (path_name (py_strip filename) ++ ".csv".data)

/-- An item of the sravni `items` JSON array, holding the fields the parser reads
(`item.get(...)` with its defaults; `none` models an absent or falsy value). -/
structure SravniItem where
  id : Option (List Char)
  date : Option (List Char)
  authorName : List Char
  locationData : Option (List Char × List Char)
  title : List Char
  text : List Char
  ratingStatus : List Char
  rating : List Char
  reviewTag : List Char
  hasCompanyResponse : Bool
deriving DecidableEq

/-- `value.replace("Z", "+00:00")` (the pattern is the single character `Z`). -/
def replace_z (s : List Char) : List Char :=
  (s.map (fun c => if c = 'Z' then "+00:00".data else [c])).flatten

/-- `SravniParser._parse_datetime`: `None` for a falsy value, otherwise
`datetime.fromisoformat` on the `Z`-normalised string (`fromisoformat` is the
parameter; it returns `none` where the Python call would raise `ValueError`). -/
def sravni_parse_datetime (fromisoformat : List Char → Option Int)
    (value : Option (List Char)) : Option Int :=
  match value with
  | none => none
  | some v => if v.isEmpty then none else fromisoformat (replace_z v)

/-- `if threshold and review_date and review_date < threshold:`. -/
def older_than (threshold d : Option Int) : Bool :=
  match threshold, d with
  | some t, some x => x < t
  | _, _ => false

/-- The row built for one sravni item (the dict literal inside
`_process_review_items`). -/
def sravni_row_of_item (slug bank_name : List Char) (it : SravniItem) : Row :=
  { url :=
      if opt_truthy it.id then
        "https://www.sravni.ru/bank/".data ++ slug ++ "/otzyvy/".data
          ++ it.id.getD [] ++ "/".data
      else []
  , review_date := it.date.getD []
  , user_name := it.authorName
  , user_city := match it.locationData with | some loc => loc.1 | none => []
  , user_city_full := match it.locationData with | some loc => loc.2 | none => []
  , review_title := it.title
  , review_text := it.text
  , review_status := it.ratingStatus
  , rating := it.rating
  , review_tag := it.reviewTag
  , bank_name := bank_name
  , is_bank_ans := it.hasCompanyResponse
  , review_id := it.id.getD [] }

/-- `SravniParser._process_review_items`: map items to rows in order, stopping at
the first item whose parsed date is strictly older than the threshold; the flag
reports whether that happened. -/
def process_review_items (fromisoformat : List Char → Option Int)
    (start_date : Option Int) (bank_name slug : List Char) :
    List SravniItem → List Row × Bool
  | [] => ([], false)
  | it :: rest =>
    if older_than start_date (sravni_parse_datetime fromisoformat it.date) then
      ([], true)
    else
      let tail := process_review_items fromisoformat start_date bank_name slug rest
      (sravni_row_of_item slug bank_name it :: tail.1, tail.2)

/-- One sravni page fetch outcome.  `http code` is a non-200 status (429 triggers
the throttle branch before the 200 check, as in the source); `invalidJson` is a 200
whose body fails `response.json()`; `ok items` is a 200 whose payload decoded, with
`payload.get("items") or []`. -/
inductive SravniResponse where
  | http (code : Nat)
  | invalidJson
  | ok (items : List SravniItem)

/-- The `for page in range(max_pages)` loop of `parse_gazprombank_reviews`.  The
second component of the result is the list of page indices actually fetched, in
order — the observable network trace (sleeps are timing, not modelled).  On 429 the
source logs, sleeps 60s and `continue`s, which moves to the next page index. -/
def sravni_pages_loop (fromisoformat : List Char → Option Int)
    (fetch : Nat → SravniResponse) (page_size : Int) (start_date : Option Int)
    (bank_name slug : List Char) :
    Nat → Nat → List Row → Except PErr (List Row) × List Nat
  | 0, _page, acc => (.ok acc, [])
  | fuel + 1, page, acc =>
    match fetch page with
    | .http code =>
      if code = 429 then
        let rest := sravni_pages_loop fromisoformat fetch page_size start_date
          bank_name slug fuel (page + 1) acc
        (rest.1, page :: rest.2)
      else (.error (.unexpected_response code page), [page])
    | .invalidJson => (.error (.json_decode_failed page), [page])
    | .ok items =>
      if items.isEmpty then (.ok acc, [page])
      else
        let pr := process_review_items fromisoformat start_date bank_name slug items
        let acc2 := acc ++ pr.1
        if pr.2 then (.ok acc2, [page])
        else if (items.length : Int) < page_size then (.ok acc2, [page])
        else
          let rest := sravni_pages_loop fromisoformat fetch page_size start_date
            bank_name slug fuel (page + 1) acc2
          (rest.1, page :: rest.2)

/-- The arguments of `SravniParser.parse_gazprombank_reviews` (and of
`BankiRuParser.parse_reviews`, which shares the signature). -/
structure SravniConfig where
  page_size : Int
  max_pages : Int
  start_date : Option Int
  bank_slug : Option (List Char)
  bank_name : Option (List Char)
  output_filename : Option (List Char)
  finger_print : Option (List Char)
  min_delay : ℚ
  max_delay : ℚ

/-- The tail of `parse_gazprombank_reviews` after the page loop has accumulated
`parsed_rows`: the "no reviews parsed" check, CSV naming, and the `ParseResult`
for `source="gazprombank_reviews"` with `rows_written = len(parsed_rows)` — no
deduplication on this path. -/
def sravni_finalize (output_filename : Option (List Char)) (slug : List Char)
    (parsed_rows : List Row) : Except PErr ParseResultM :=
  if parsed_rows.isEmpty then .error .no_reviews_parsed
  else
    match ensure_csv_filename
        (str_or output_filename ("sravni_reviews_".data ++ slug ++ ".csv".data)) with
    | .error e => .error e
    | .ok filename =>
      .ok { source := "gazprombank_reviews".data
          , filename := filename
          , rows_written := parsed_rows.length
          , rows := parsed_rows }

/-- `SravniParser.parse_gazprombank_reviews`: validation, the page loop over
`range(max_pages)` starting from page 0 with no accumulated rows, then the
finalisation.  The second component is the fetched-page trace. -/
def parse_gazprombank_reviews (fromisoformat : List Char → Option Int)
    (fetch : Nat → SravniResponse) (cfg : SravniConfig) :
    Except PErr ParseResultM × List Nat :=
  if cfg.page_size ≤ 0 then (.error .page_size_not_positive, [])
  else if cfg.max_pages ≤ 0 then (.error .max_pages_not_positive, [])
  else if cfg.min_delay > cfg.max_delay then (.error .invalid_delay_range, [])
  else
    match sravni_pages_loop fromisoformat fetch cfg.page_size cfg.start_date
        (str_or cfg.bank_name "Газпромбанк".data) (str_or cfg.bank_slug "gazprombank".data)
        cfg.max_pages.toNat 0 [] with
    | (.error e, trace) => (.error e, trace)
    | (.ok parsed_rows, trace) =>
      (sravni_finalize cfg.output_filename (str_or cfg.bank_slug "gazprombank".data)
        parsed_rows, trace)

/-! ### banki.ru -/

/-- Dedup identity: the source-native id when truthy, else the `(date, text)`
content key — the tuples built by `_deduplicate_rows`. -/
inductive DedupKey where
  | by_id (id : List Char)
  | by_content (date text : List Char)
deriving DecidableEq

/-- The dedup key of one row (`row.get("review_id")` is truthy iff non-empty). -/
def dedup_key (row : Row) : DedupKey :=
  if row.review_id.isEmpty then .by_content row.review_date row.review_text
  else .by_id row.review_id

/-- The scan of `BankiRuParser._deduplicate_rows`, carrying the `seen_keys` set. -/
def deduplicate_rows_aux (seen : List DedupKey) : List Row → List Row
  | [] => []
  | r :: rest =>
    if seen.contains (dedup_key r) then deduplicate_rows_aux seen rest
    else r :: deduplicate_rows_aux (dedup_key r :: seen) rest

/-- `BankiRuParser._deduplicate_rows`: first-seen row per key is kept, later
duplicates are dropped. -/
def deduplicate_rows (rows : List Row) : List Row := deduplicate_rows_aux [] rows

/-- One attempt's outcome inside `_fetch_banki_page`.  `net_error` is a
`requests.RequestException`; `http code` any non-200 status; `ok body` a 200. -/
inductive BankiResponse where
  | net_error
  | http (code : Nat)
  | ok (body : List Char)

/-- The retry loop of `BankiRuParser._fetch_banki_page` over attempts
`1..max_retries`.  Request errors, 429, 403 and 5xx all fall through to the next
attempt (each after its own sleep/backoff/session-rotation, which are effects);
any other non-200 raises immediately; exhausting the budget raises.  The second
component counts attempts consumed. -/
def fetch_banki_page_aux (resp : Nat → BankiResponse) (page : Nat) :
    Nat → Nat → Except PErr (List Char) × Nat
  | 0, used => (.error (.banki_fetch_exhausted page), used)
  | fuel + 1, used =>
    match resp (used + 1) with
    | .net_error => fetch_banki_page_aux resp page fuel (used + 1)
    | .http code =>
      if code = 429 then fetch_banki_page_aux resp page fuel (used + 1)
      else if code = 403 then fetch_banki_page_aux resp page fuel (used + 1)
      else if 500 ≤ code ∧ code < 600 then fetch_banki_page_aux resp page fuel (used + 1)
      else (.error (.unexpected_banki_response code page), used + 1)
    | .ok body => (.ok body, used + 1)

/-- `BankiRuParser._fetch_banki_page` with its retry budget
(`_max_retries`, default 6). -/
def fetch_banki_page (resp : Nat → BankiResponse) (page : Nat) (max_retries : Nat) :
    Except PErr (List Char) × Nat :=
  fetch_banki_page_aux resp page max_retries 0

/-- A banki.ru `responses.data` item, holding the fields `_build_row` reads. -/
structure BankiItem where
  id : Option (List Char)
  dateCreate : List Char
  text : List Char
  title : List Char
  grade : List Char
  agentAnswerText : List Char
  isCountable : Option Bool
deriving DecidableEq

/-- A JSON-LD `Review` entry as `_build_row` reads it (`meta`). -/
structure LdReview where
  author : List Char
  description : List Char
  name : List Char
  ratingValue : List Char
deriving DecidableEq

/-- `BankiRuParser._parse_datetime`: `None` for a falsy value, otherwise
`datetime.strptime(value, "%Y-%m-%d %H:%M:%S")` via the parameter. -/
def banki_parse_datetime (strptime : List Char → Option Int) (value : List Char) :
    Option Int :=
  if value.isEmpty then none else strptime value

/-- `BankiRuParser._infer_status_from_item`: a found badge wins, else the
`isCountable` flag decides, else "under review". -/
def infer_status_from_item (status_text : List Char) (it : BankiItem) : List Char :=
  if !status_text.isEmpty then status_text
  else match it.isCountable with
  | some true => "Отзыв проверен".data
  | some false => "Отзыв не зачтен".data
  | none => "Отзыв проверяется".data

/-- `BankiRuParser._build_row`.  `strptime`/`isoformat` wrap `datetime`;
`normalize_text` is `_normalize_text` (HTML-tag stripping, irrelevant to every
claim, hence a parameter).  Returns `(None, True)` — skip the row and signal the
stop — when the parsed date is strictly older than the threshold. -/
def banki_build_row (strptime : List Char → Option Int) (isoformat : Int → List Char)
    (normalize_text : List Char → List Char) (it : BankiItem) (meta : LdReview)
    (slug bank_name : List Char) (threshold : Option Int) (status_text : List Char) :
    Option Row × Bool :=
  let date_raw := it.dateCreate
  let d := banki_parse_datetime strptime date_raw
  if older_than threshold d then (none, true)
  else
    let review_url :=
      if opt_truthy it.id then
        "https://www.banki.ru/services/responses/bank/".data ++ slug
          ++ "/?id=".data ++ it.id.getD []
      else []
    let review_date_value := match d with
      | some x => isoformat x
      | none => date_raw
    let review_text := normalize_text (first_truthy [meta.description, it.text])
    (some
      { url := review_url
      , review_date := review_date_value
      , user_name := meta.author
      , user_city := []
      , user_city_full := []
      , review_title := first_truthy [it.title, meta.name]
      , review_text := review_text
      , review_status := infer_status_from_item status_text it
      , rating := first_truthy [it.grade, meta.ratingValue]
      , review_tag := []
      , bank_name := bank_name
      , is_bank_ans := !it.agentAnswerText.isEmpty
      , review_id := it.id.getD [] }, false)

/-- The tail of `BankiRuParser.parse_reviews` after the page loop has accumulated
`parsed_rows`: the "no reviews parsed" check, CSV naming, deduplication, and the
`ParseResult` for `source="banki_ru"` whose rows and `rows_written` are the
deduplicated set. -/
def banki_finalize (output_filename : Option (List Char)) (slug : List Char)
    (parsed_rows : List Row) : Except PErr ParseResultM :=
  if parsed_rows.isEmpty then .error .no_reviews_parsed
  else
    match ensure_csv_filename
        (str_or output_filename ("banki_ru_reviews_".data ++ slug ++ ".csv".data)) with
    | .error e => .error e
    | .ok filename =>
      let unique_rows := deduplicate_rows parsed_rows
      .ok { source := "banki_ru".data
          , filename := filename
          , rows_written := unique_rows.length
          , rows := unique_rows }

/-! ### `ParserService.resolve_csv_path`

The filesystem is a map from a path (a list of components) to what sits there. -/

/-- What a path resolves to on disk. -/
inductive FileKind where
  | file
  | dir
  | absent
deriving DecidableEq

/-- `ParserService.resolve_csv_path`: take the base name of the requested
filename, join it onto the data directory, and serve it only if it exists and is a
regular file. -/
def resolve_csv_path (fs : List (List Char) → FileKind) (data_dir : List (List Char))
    (filename : List Char) : Except PErr (List (List Char)) :=
  let safe_name := path_name filename
  let path := data_dir ++ [safe_name]
  if fs path = .absent then .error .csv_not_found
  else if fs path ≠ .file then .error .csv_not_regular_file
  else .ok path

/-! ## `app/api/routes/parser.py` and `app/schemas/parser.py` -/

/-- The `ParserSource` enum discriminating `ParseJobRequest`. -/
inductive ParserSource where
  | gazprombank_reviews
  | banki_ru
deriving DecidableEq

/-- A validated `ParseJobRequest` (either `GazprombankReviewsJob` or
`BankiRuReviewsJob`; the payload fields are shared, only `source` differs). -/
structure ParseJobRequest where
  source : ParserSource
  page_size : Int
  max_pages : Int
  start_date : Option Int
  min_delay : ℚ
  max_delay : ℚ
  finger_print : Option (List Char)
  output_filename : Option (List Char)

/-- The fields of `ParseJobResult` that the claims observe. -/
structure ParseJobResult where
  source : List Char
  filename : List Char
  rows_written : Nat
  rows : List Row
deriving DecidableEq

/-- `run_parser_job` (POST /parser/run): the route calls
`parser_service.parse_gazprombank_reviews` — the sravni parser — for every job,
passing the job's paging/delay/filename fields and never inspecting `job.source`;
the result's `source` field is echoed into the response. -/
def run_parser_job (fromisoformat : List Char → Option Int)
    (fetch : Nat → SravniResponse) (job : ParseJobRequest) :
    Except PErr ParseJobResult :=
  match (parse_gazprombank_reviews fromisoformat fetch
      { page_size := job.page_size
      , max_pages := job.max_pages
      , start_date := job.start_date
      , bank_slug := none
      , bank_name := none
      , output_filename := job.output_filename
      , finger_print := job.finger_print
      , min_delay := job.min_delay
      , max_delay := job.max_delay }).1 with
  | .error e => .error e
  | .ok r =>
    .ok { source := r.source
        , filename := r.filename
        , rows_written := r.rows_written
        , rows := r.rows }

/-! ## Concrete fixtures

Small concrete inputs used to instantiate the theorems below on runnable data. -/

/-- A one-review sravni page item. -/
def demo_item : SravniItem :=
  { id := some "A1".data, date := none, authorName := "u".data
  , locationData := none, title := "t".data, text := "b".data, ratingStatus := []
  , rating := [], reviewTag := [], hasCompanyResponse := false }

/-- A one-review item whose date string parses under `demo_fromiso`. -/
def demo_dated_item : SravniItem :=
  { demo_item with date := some "d1".data }

/-- A tiny `fromisoformat`: day "d1" is timestamp 5, everything else fails. -/
def demo_fromiso (s : List Char) : Option Int :=
  if s = "d1".data then some 5 else none

/-- A small sravni job configuration (valid page size, two pages). -/
def demo_cfg : SravniConfig :=
  { page_size := 1, max_pages := 2, start_date := none, bank_slug := none
  , bank_name := none, output_filename := none, finger_print := none
  , min_delay := 1, max_delay := 2 }

/-- The row `demo_dated_item` maps to under the default slug and bank name. -/
def demo_row : Row :=
  sravni_row_of_item "gazprombank".data "Газпромбанк".data demo_dated_item

/-- An embedding API double whose response indices arrive in reverse order. -/
def demo_api (chunk : List (List Char)) : Option (List (Nat × Nat)) :=
  some ((List.range chunk.length).reverse.map (fun i => (i, i)))

/-! ## Helper lemmas: Python string primitives -/

theorem strip_left_cons_not_space {c : Char} {s : List Char} (h : py_is_space c = false) :
    strip_left (c :: s) = c :: s := by
  simp [strip_left, List.dropWhile_cons, h]

theorem strip_left_cons_space {c : Char} {s : List Char} (h : py_is_space c = true) :
    strip_left (c :: s) = strip_left s := by
  simp [strip_left, List.dropWhile_cons, h]

theorem strip_right_append_not_space {s : List Char} {c : Char} (h : py_is_space c = false) :
    strip_right (s ++ [c]) = s ++ [c] := by
  simp [strip_right, List.reverse_append, List.dropWhile_cons, h]

theorem strip_right_append_space {s : List Char} {c : Char} (h : py_is_space c = true) :
    strip_right (s ++ [c]) = strip_right s := by
  simp [strip_right, List.reverse_append, List.dropWhile_cons, h]

theorem strip_right_nil : strip_right ([] : List Char) = [] := rfl

/-- A string containing any non-whitespace character does not strip to empty. -/
theorem py_strip_ne_nil {s : List Char} {c : Char} (hc : c ∈ s)
    (hns : py_is_space c = false) : py_strip s ≠ [] := by
  intro h
  simp only [py_strip, strip_right] at h
  rw [List.reverse_eq_nil_iff] at h
  have h4 := List.dropWhile_eq_nil_iff.mp h
  rw [← List.takeWhile_append_dropWhile (p := py_is_space) (l := s)] at hc
  rcases List.mem_append.mp hc with h5 | h5
  · have := List.mem_takeWhile_imp h5
    simp [hns] at this
  · have := h4 c (List.mem_reverse.mpr h5)
    simp [hns] at this

/-- Stripping is unchanged by a surrounding newline pair (the residue left by
fence stripping). -/
theorem py_strip_nl_wrap (body : List Char) :
    py_strip ('\n' :: (body ++ ['\n'])) = py_strip body := by
  simp only [py_strip]
  rw [strip_left_cons_space (by decide)]
  by_cases hb : (strip_left body).isEmpty
  · have h1 : strip_left (body ++ ['\n']) = strip_left ['\n'] := by
      simp only [strip_left] at hb ⊢
      rw [List.dropWhile_append, if_pos hb]
    have h2 : strip_left body = [] := by
      simpa [List.isEmpty_iff] using hb
    rw [h1, h2]
    decide
  · have hb' : (strip_left body).isEmpty = false := by
      simpa using hb
    have h1 : strip_left (body ++ ['\n']) = strip_left body ++ ['\n'] := by
      simp only [strip_left] at hb' ⊢
      rw [List.dropWhile_append, if_neg (by simp [hb'])]
    rw [h1, strip_right_append_space (by decide)]

/-! ## Helper lemmas: the fenced-code-block shape -/

/-- A fenced chat response starts and ends with a backtick, so the outer
`content.strip()` leaves it unchanged. -/
theorem py_strip_fenced (body : List Char) :
    py_strip ("```json\n".data ++ body ++ "\n```".data)
      = "```json\n".data ++ body ++ "\n```".data := by
  have hform : "```json\n".data ++ body ++ "\n```".data
      = '`' :: (("``json\n".data ++ body ++ "\n``".data) ++ ['`']) := by
    simp [List.cons_append, List.append_assoc]
  rw [hform]
  simp only [py_strip]
  rw [strip_left_cons_not_space (by decide)]
  rw [show '`' :: (("``json\n".data ++ body ++ "\n``".data) ++ ['`'])
      = ('`' :: ("``json\n".data ++ body ++ "\n``".data)) ++ ['`'] from rfl]
  rw [strip_right_append_not_space (by decide)]

/-- Fence stripping on a fenced body: the marker, the `json` tag and the closing
fence go, the wrapping newlines are stripped, and what is left is exactly
`body.strip()`. -/
theorem strip_fences_fenced (body : List Char) :
    strip_fences ("```json\n".data ++ body ++ "\n```".data) = py_strip body := by
  have hcontent : "```json\n".data ++ body ++ "\n```".data
      = '`' :: '`' :: '`' :: 'j' :: 's' :: 'o' :: 'n' :: '\n' :: (body ++ "\n```".data) := by
    simp [List.cons_append, List.append_assoc]
  rw [strip_fences, hcontent]
  rw [if_pos (by rfl)]
  have hs1 : (('`' :: '`' :: '`' :: 'j' :: 's' :: 'o' :: 'n' :: '\n'
      :: (body ++ "\n```".data)).drop 3).dropWhile is_ascii_alnum
      = ('\n' :: (body ++ ['\n'])) ++ "```".data := by
    show List.dropWhile is_ascii_alnum
        ('j' :: 's' :: 'o' :: 'n' :: '\n' :: (body ++ "\n```".data))
      = ('\n' :: (body ++ ['\n'])) ++ "```".data
    rw [List.dropWhile_cons, if_pos (by decide), List.dropWhile_cons, if_pos (by decide),
      List.dropWhile_cons, if_pos (by decide), List.dropWhile_cons, if_pos (by decide),
      List.dropWhile_cons, if_neg (by decide)]
    simp [List.cons_append, List.append_assoc]
  rw [hs1, strip_trailing_fence]
  rw [if_pos (show "```".data.isSuffixOf (('\n' :: (body ++ ['\n'])) ++ "```".data) = true
    from List.isSuffixOf_iff_suffix.mpr (List.suffix_append _ _))]
  have hlen : ((('\n' :: (body ++ ['\n'])) ++ "```".data).length - 3)
      = ('\n' :: (body ++ ['\n'])).length := by
    simp
  rw [hlen, List.take_left]
  exact py_strip_nl_wrap body

/-! ## Helper lemmas: deduplication -/

theorem deduplicate_rows_aux_sublist (l : List Row) :
    ∀ seen, List.Sublist (deduplicate_rows_aux seen l) l := by
  induction l with
  | nil => intro seen; simp [deduplicate_rows_aux]
  | cons r rest ih =>
    intro seen
    rw [deduplicate_rows_aux]
    split
    · exact (ih seen).cons r
    · exact (ih _).cons₂ r

theorem deduplicate_rows_aux_not_seen (l : List Row) :
    ∀ seen r, r ∈ deduplicate_rows_aux seen l →
      seen.contains (dedup_key r) = false := by
  induction l with
  | nil => intro seen r hr; simp [deduplicate_rows_aux] at hr
  | cons x rest ih =>
    intro seen r hr
    rw [deduplicate_rows_aux] at hr
    split at hr
    · exact ih seen r hr
    · next hx =>
      rcases List.mem_cons.mp hr with rfl | h2
      · simpa using hx
      · have h3 := ih (dedup_key x :: seen) r h2
        simp only [List.contains_cons, Bool.or_eq_false_iff] at h3
        exact h3.2

theorem deduplicate_rows_aux_pairwise (l : List Row) :
    ∀ seen, List.Pairwise (fun a b => dedup_key a ≠ dedup_key b)
      (deduplicate_rows_aux seen l) := by
  induction l with
  | nil => intro seen; simp [deduplicate_rows_aux]
  | cons x rest ih =>
    intro seen
    rw [deduplicate_rows_aux]
    split
    · exact ih seen
    · refine List.Pairwise.cons ?_ (ih _)
      intro b hb hkey
      have h3 := deduplicate_rows_aux_not_seen rest _ b hb
      simp only [List.contains_cons, Bool.or_eq_false_iff] at h3
      rw [hkey] at h3
      simpa using h3.1

theorem deduplicate_rows_aux_covers (l : List Row) :
    ∀ seen r, r ∈ l →
      seen.contains (dedup_key r) = true
        ∨ ∃ r2 ∈ deduplicate_rows_aux seen l, dedup_key r2 = dedup_key r := by
  induction l with
  | nil => intro seen r hr; cases hr
  | cons x rest ih =>
    intro seen r hr
    by_cases hc : seen.contains (dedup_key x) = true
    · rcases List.mem_cons.mp hr with rfl | h2
      · exact Or.inl hc
      · rcases ih seen r h2 with h3 | ⟨r2, hr2, hk⟩
        · exact Or.inl h3
        · exact Or.inr ⟨r2, by rw [deduplicate_rows_aux, if_pos hc]; exact hr2, hk⟩
    · have hstep : deduplicate_rows_aux seen (x :: rest)
          = x :: deduplicate_rows_aux (dedup_key x :: seen) rest := by
        rw [deduplicate_rows_aux, if_neg hc]
      rcases List.mem_cons.mp hr with rfl | h2
      · exact Or.inr ⟨r, by rw [hstep]; exact List.mem_cons_self _ _, rfl⟩
      · rcases ih (dedup_key x :: seen) r h2 with h3 | ⟨r2, hr2, hk⟩
        · simp only [List.contains_cons, Bool.or_eq_true_iff] at h3
          rcases h3 with h4 | h4
          · refine Or.inr ⟨x, by rw [hstep]; exact List.mem_cons_self _ _, ?_⟩
            exact (beq_iff_eq.mp h4).symm
          · exact Or.inl h4
        · exact Or.inr ⟨r2, by rw [hstep]; exact List.mem_cons_of_mem x hr2, hk⟩

/-! ## Helper lemmas: path names -/

theorem split_slash_no_slash (s : List Char) :
    ∀ comp ∈ split_slash s, '/' ∉ comp := by
  induction s with
  | nil =>
    intro comp hc
    simp only [split_slash, List.mem_singleton] at hc
    simp [hc]
  | cons c rest ih =>
    intro comp hc
    rw [split_slash] at hc
    by_cases h : c = '/'
    · rw [if_pos h] at hc
      rcases List.mem_cons.mp hc with rfl | h2
      · simp
      · exact ih comp h2
    · rw [if_neg h] at hc
      cases hr : split_slash rest with
      | nil =>
        rw [hr] at hc
        simp only [List.mem_singleton] at hc
        subst hc
        simp only [List.mem_singleton]
        exact fun heq => h heq.symm
      | cons comp0 comps =>
        rw [hr] at hc
        rcases List.mem_cons.mp hc with rfl | h2
        · intro habs
          rcases List.mem_cons.mp habs with heq | h3
          · exact h heq.symm
          · exact ih comp0 (by rw [hr]; exact List.mem_cons_self _ _) h3
        · exact ih comp (by rw [hr]; exact List.mem_cons_of_mem comp0 h2)

theorem path_name_no_slash (s : List Char) : '/' ∉ path_name s := by
  rw [path_name]
  cases hg : ((split_slash s).filter
      (fun comp => !comp.isEmpty && comp != ['.'])).getLast? with
  | none => simp
  | some comp =>
    have h1 := List.mem_of_mem_getLast? hg
    have h2 := List.mem_of_mem_filter h1
    exact split_slash_no_slash s comp h2

/-! ## Claim C4 — trailing-comma JSON in a fenced code block -/

/-- C4, counterexample.  The claim says a fenced code block containing JSON with a
trailing comma is repaired and "validates successfully"; on the concrete response
```` ```json\n{"sentiment": "neutral",}\n``` ```` the parser strips the fences but
`json.loads` rejects both candidates (there is no repair step), so
`_parse_model_response` raises its `ValueError` instead of validating. -/
theorem c4_counterexample :
    except_err? (parse_model_response
        "```json\n\x7b\"sentiment\": \"neutral\",\x7d\n```".data)
      = some MlParseErr.unparseable := by decide

/-- C4, amended: for every fenced chat response, the parser strips the fences and
then attempts a strict parse of the stripped body and of its largest braced span;
trailing commas are not repaired, so whenever the stripped body fails the strict
parse in both candidate forms (as trailing-comma JSON does), the parser raises
`ValueError("Unable to parse JSON sentiment response")`. -/
theorem c4_fenced_no_repair (body : List Char)
    (h1 : json_loads (py_strip body) = none)
    (h2 : ∀ c, brace_span (py_strip body) = some c → json_loads c = none) :
    parse_model_response ("```json\n".data ++ body ++ "\n```".data)
      = Except.error MlParseErr.unparseable := by
  have hne : ("```json\n".data ++ body ++ "\n```".data).isEmpty = false := by
    simp [List.isEmpty_iff]
  rw [parse_model_response, if_neg (by simp [hne])]
  rw [py_strip_fenced, strip_fences_fenced]
  simp only [try_candidates, h1]
  cases hbs : brace_span (py_strip body) with
  | none => rfl
  | some c => simp only [h2 c hbs]

/-- C4, witness: the amended theorem applied to the body `{"a": 1,}`, whose two
candidates both fail the strict parse. -/
theorem c4_witness :
    parse_model_response ("```json\n".data ++ "\x7b\"a\": 1,\x7d".data ++ "\n```".data)
      = Except.error MlParseErr.unparseable :=
  c4_fenced_no_repair "\x7b\"a\": 1,\x7d".data (by rfl)
    (fun c hc => by
      have hb : brace_span (py_strip "\x7b\"a\": 1,\x7d".data)
          = some "\x7b\"a\": 1,\x7d".data := by decide
      rw [hb] at hc
      cases hc
      rfl)

/-! ## Claim C10 — CSV base names and the download resolver -/

/-- C10, counterexample.  A job run with `output_filename="report.CSV"` completes
and records the filename `report.CSV` in its `ParseResult` — a name that does not
end in the literal string `.csv` (the extension check is case-insensitive), against
the claim that every recorded filename ends in ".csv". -/
theorem c10_counterexample :
    (except_ok? (parse_gazprombank_reviews (fun _ => none)
        (fun _ => SravniResponse.ok
          [{ id := some "A1".data, date := none, authorName := "u".data
           , locationData := none, title := "t".data, text := "b".data
           , ratingStatus := [], rating := [], reviewTag := []
           , hasCompanyResponse := false }])
        { page_size := 1, max_pages := 1, start_date := none, bank_slug := none
        , bank_name := none, output_filename := some "report.CSV".data
        , finger_print := none, min_delay := 1, max_delay := 2 }).1).map
      (fun r => (r.filename, ".csv".data.isSuffixOf r.filename))
      = some ("report.CSV".data, false) := by decide

/-- C10, amended: every filename accepted by `_ensure_csv_filename` is a bare base
name (no `/`) ending in `.csv` up to letter case, and the download resolver serves
only a path that is the data directory joined with the requested name's base name
and that the filesystem reports as a regular file. -/
theorem c10_filename_and_resolver :
    (∀ name c, ensure_csv_filename name = .ok c →
        '/' ∉ c ∧ List.IsSuffix ".csv".data (py_lower c))
  ∧ (∀ (fs : List (List Char) → FileKind) (data_dir : List (List Char))
        (filename : List Char) (p : List (List Char)),
      resolve_csv_path fs data_dir filename = .ok p →
        p = data_dir ++ [path_name filename] ∧ fs p = .file
          ∧ '/' ∉ path_name filename) := by
  constructor
  · intro name c h
    rw [ensure_csv_filename] at h
    split at h
    · cases h
    · split at h
      · next hsuf =>
        cases h
        exact ⟨path_name_no_slash _, List.isSuffixOf_iff_suffix.mp hsuf⟩
      · next hsuf =>
        cases h
        constructor
        · intro habs
          rcases List.mem_append.mp habs with h1 | h1
          · exact path_name_no_slash _ h1
          · simp at h1
        · rw [py_lower, List.map_append]
          exact (show List.map Char.toLower ".csv".data = ".csv".data from rfl)
            ▸ List.suffix_append _ _
  · intro fs data_dir filename p h
    rw [resolve_csv_path] at h
    split at h
    · cases h
    · split at h
      · cases h
      · next h1 h2 =>
        cases h
        refine ⟨rfl, not_not.mp h2, path_name_no_slash _⟩

/-- C10, witness: the amended theorem at `report.CSV` (kept as-is, no directory
part, case-insensitively `.csv`) and at a one-file filesystem where the resolver
succeeds. -/
theorem c10_witness :
    ('/' ∉ "report.CSV".data ∧ List.IsSuffix ".csv".data (py_lower "report.CSV".data))
  ∧ ((["data".data, "a.csv".data] : List (List Char)) = ["data".data] ++ [path_name "a.csv".data]
      ∧ (fun p => if p = ["data".data, "a.csv".data] then FileKind.file else FileKind.absent)
          ["data".data, "a.csv".data] = FileKind.file
      ∧ '/' ∉ path_name "a.csv".data) :=
  ⟨c10_filename_and_resolver.1 "report.CSV".data "report.CSV".data (by rfl),
   c10_filename_and_resolver.2
     (fun p => if p = ["data".data, "a.csv".data] then FileKind.file else FileKind.absent)
     ["data".data] "a.csv".data ["data".data, "a.csv".data] (by rfl)⟩

/-! ## Claim C8 — the fallback analyzer -/

/-- C8: `_fallback_analysis` maps polarity strictly above 0.1 to "positive",
strictly below -0.1 to "negative", anything else to "neutral"; its score is the
raw polarity, its summary the first 280 characters of the text, and its highlights
list empty (its embedding is `None`). -/
theorem c8_fallback_analysis (text : List Char) (polarity : ℚ) :
    ((mkRat 1 10 < polarity →
        (fallback_analysis text polarity).sentiment = "positive".data)
      ∧ (polarity < mkRat (-1) 10 →
          (fallback_analysis text polarity).sentiment = "negative".data)
      ∧ (¬ mkRat 1 10 < polarity → ¬ polarity < mkRat (-1) 10 →
          (fallback_analysis text polarity).sentiment = "neutral".data))
  ∧ (fallback_analysis text polarity).sentiment_score = some polarity
  ∧ (fallback_analysis text polarity).summary = some (text.take 280)
  ∧ (fallback_analysis text polarity).highlights = []
  ∧ (fallback_analysis text polarity).embedding = none := by
  refine ⟨⟨?_, ?_, ?_⟩, rfl, rfl, rfl, rfl⟩
  · intro h
    simp [fallback_analysis, h]
  · intro h
    by_cases hpos : mkRat 1 10 < polarity
    · exact absurd (lt_trans h (lt_trans (by decide) hpos)) (lt_irrefl polarity)
    · simp [fallback_analysis, hpos, h]
  · intro h1 h2
    simp [fallback_analysis, h1, h2]

/-- C8, witness: the theorem at polarity 1/2 (the "positive" branch applies). -/
theorem c8_witness :
    (fallback_analysis "hi".data (mkRat 1 2)).sentiment = "positive".data :=
  (c8_fallback_analysis "hi".data (mkRat 1 2)).1.1 (by decide)

/-! ## Claim C5 — sentiment label set and score range -/

/-- `SentimentPayload.clean` only lets the three allowed labels through. -/
theorem clean_label (j : PyJson) (p : SentimentPayload)
    (h : sentiment_payload_clean j = some p) :
    p.sentiment = "positive".data ∨ p.sentiment = "negative".data
      ∨ p.sentiment = "neutral".data := by
  rw [sentiment_payload_clean] at h
  cases hv : sentiment_payload_validate j with
  | none =>
    rw [hv] at h
    replace h : (none : Option SentimentPayload) = some p := h
    cases h
  | some p2 =>
    rw [hv] at h
    replace h : (if (p2.sentiment == "positive".data || p2.sentiment == "negative".data
        || p2.sentiment == "neutral".data) = true then some p2 else none) = some p := h
    split at h
    · next hcond =>
      cases h
      simpa [beq_iff_eq, or_assoc] using hcond
    · cases h

/-- C5, counterexample.  A chat response whose `sentiment_score` is 2 passes
`SentimentPayload.clean` and is returned by the success path of
`analyze_text_async` unchanged: the score is outside [-1, 1], against the claim
that whenever `sentiment_score` is present it lies in [-1, 1]. -/
theorem c5_counterexample :
    (analyze_llm_success
        "\x7b\"sentiment\": \"positive\", \"sentiment_score\": 2\x7d".data none).map
      (fun r => (r.sentiment, r.sentiment_score))
      = some ("positive".data, some 2) ∧ ¬ ((2 : ℚ) ≤ 1) := by
  constructor
  · decide
  · decide

/-- C5, amended: the sentiment label is always one of
positive/negative/neutral on both the LLM path (enforced by
`SentimentPayload.clean`) and the fallback path, and the fallback score equals the
polarity, hence lies in [-1, 1] whenever the polarity does; on the LLM path the
score is passed through without any range validation (see the counterexample). -/
theorem c5_label_always_valid :
    (∀ j p, sentiment_payload_clean j = some p →
        p.sentiment = "positive".data ∨ p.sentiment = "negative".data
          ∨ p.sentiment = "neutral".data)
  ∧ (∀ content emb r, analyze_llm_success content emb = some r →
        r.sentiment = "positive".data ∨ r.sentiment = "negative".data
          ∨ r.sentiment = "neutral".data)
  ∧ (∀ text pol,
        (fallback_analysis text pol).sentiment = "positive".data
          ∨ (fallback_analysis text pol).sentiment = "negative".data
          ∨ (fallback_analysis text pol).sentiment = "neutral".data)
  ∧ (∀ text pol q, (fallback_analysis text pol).sentiment_score = some q →
        -1 ≤ pol → pol ≤ 1 → -1 ≤ q ∧ q ≤ 1) := by
  refine ⟨clean_label, ?_, ?_, ?_⟩
  · intro content emb r h
    rw [analyze_llm_success] at h
    cases hp : parse_model_response content with
    | error e =>
      rw [hp] at h
      replace h : (none : Option MlResult) = some r := h
      cases h
    | ok j =>
      rw [hp] at h
      replace h : (sentiment_payload_clean j).map
          (fun p => ({ sentiment := p.sentiment, sentiment_score := p.sentiment_score
                     , summary := p.summary, embedding := emb
                     , highlights := p.highlights } : MlResult)) = some r := h
      cases hc : sentiment_payload_clean j with
      | none =>
        rw [hc] at h
        replace h : (none : Option MlResult) = some r := h
        cases h
      | some p =>
        rw [hc] at h
        replace h : some ({ sentiment := p.sentiment, sentiment_score := p.sentiment_score
                          , summary := p.summary, embedding := emb
                          , highlights := p.highlights } : MlResult) = some r := h
        cases h
        exact clean_label j p hc
  · intro text pol
    by_cases h1 : mkRat 1 10 < pol
    · left; simp [fallback_analysis, h1]
    · by_cases h2 : pol < mkRat (-1) 10
      · right; left; simp [fallback_analysis, h1, h2]
      · right; right; simp [fallback_analysis, h1, h2]
  · intro text pol q h hlo hhi
    have : some pol = some q := h
    cases this
    exact ⟨hlo, hhi⟩

/-- C5, witness: the label invariant at a concrete cleaned payload. -/
theorem c5_witness :
    ("neutral".data = "positive".data ∨ "neutral".data = "negative".data
      ∨ "neutral".data = "neutral".data) :=
  c5_label_always_valid.1 (PyJson.obj [("sentiment".data, PyJson.str "neutral".data)])
    { sentiment := "neutral".data, sentiment_score := none, summary := none
    , highlights := [] } (by rfl)

/-! ## Claim C6 — configuration validation and the network boundary -/

/-- C6, counterexample.  Against the claim that an empty/missing output filename is
rejected before any network call: a whitespace-only filename is rejected only
*after* the page fetch (the trace `[0]` records a fetched page), and an
empty-string filename is not rejected at all — the default name is used and the
job succeeds. -/
theorem c6_counterexample :
    (except_err? (parse_gazprombank_reviews (fun _ => none)
          (fun _ => SravniResponse.ok [demo_item])
          { demo_cfg with max_pages := 1, output_filename := some " ".data }).1
        = some PErr.empty_output_filename
      ∧ (parse_gazprombank_reviews (fun _ => none)
          (fun _ => SravniResponse.ok [demo_item])
          { demo_cfg with max_pages := 1, output_filename := some " ".data }).2 = [0])
  ∧ (except_ok? (parse_gazprombank_reviews (fun _ => none)
        (fun _ => SravniResponse.ok [demo_item])
        { demo_cfg with max_pages := 1, output_filename := some [] }).1).map
      (fun r => r.filename) = some "sravni_reviews_gazprombank.csv".data := by
  refine ⟨⟨?_, ?_⟩, ?_⟩ <;> decide

/-- C6, amended: a non-positive page size, a non-positive max_pages and an
inverted delay range are each rejected before any network call (the fetch trace is
empty); an empty or missing output filename falls back to the default
`sravni_reviews_{slug}.csv`, which never triggers the empty-name rejection. -/
theorem c6_config_validation :
    (∀ fromisoformat fetch cfg, cfg.page_size ≤ 0 →
        parse_gazprombank_reviews fromisoformat fetch cfg
          = (.error .page_size_not_positive, []))
  ∧ (∀ fromisoformat fetch cfg, 0 < cfg.page_size → cfg.max_pages ≤ 0 →
        parse_gazprombank_reviews fromisoformat fetch cfg
          = (.error .max_pages_not_positive, []))
  ∧ (∀ fromisoformat fetch cfg, 0 < cfg.page_size → 0 < cfg.max_pages →
        cfg.max_delay < cfg.min_delay →
        parse_gazprombank_reviews fromisoformat fetch cfg
          = (.error .invalid_delay_range, []))
  ∧ (∀ slug, ∃ f,
        ensure_csv_filename ("sravni_reviews_".data ++ slug ++ ".csv".data)
          = .ok f) := by
  refine ⟨?_, ?_, ?_, ?_⟩
  · intro fromisoformat fetch cfg h
    rw [parse_gazprombank_reviews, if_pos h]
  · intro fromisoformat fetch cfg h1 h2
    rw [parse_gazprombank_reviews, if_neg (by omega), if_pos h2]
  · intro fromisoformat fetch cfg h1 h2 h3
    rw [parse_gazprombank_reviews, if_neg (by omega), if_neg (by omega), if_pos h3]
  · intro slug
    have hs : py_strip ("sravni_reviews_".data ++ slug ++ ".csv".data) ≠ [] := by
      refine py_strip_ne_nil (c := 's') ?_ (by decide)
      exact List.mem_append.mpr (Or.inl (List.mem_append.mpr (Or.inl (by decide))))
    rw [ensure_csv_filename]
    rw [if_neg (by simpa [List.isEmpty_iff] using hs)]
    by_cases hsuf : ".csv".data.isSuffixOf
        (py_lower (path_name (py_strip ("sravni_reviews_".data ++ slug ++ ".csv".data)))) = true
    · exact ⟨_, by rw [if_pos hsuf]⟩
    · exact ⟨_, by rw [if_neg hsuf]⟩

/-- C6, witness: each validation applied at a concrete invalid configuration, and
the default filename at the default slug. -/
theorem c6_witness :
    parse_gazprombank_reviews (fun _ => none) (fun _ => SravniResponse.ok [])
        { demo_cfg with page_size := 0 } = (.error .page_size_not_positive, [])
  ∧ parse_gazprombank_reviews (fun _ => none) (fun _ => SravniResponse.ok [])
        { demo_cfg with max_pages := 0 } = (.error .max_pages_not_positive, [])
  ∧ parse_gazprombank_reviews (fun _ => none) (fun _ => SravniResponse.ok [])
        { demo_cfg with min_delay := 3 } = (.error .invalid_delay_range, [])
  ∧ ∃ f, ensure_csv_filename ("sravni_reviews_".data ++ "gazprombank".data ++ ".csv".data)
        = .ok f :=
  ⟨c6_config_validation.1 _ _ _ (by decide),
   c6_config_validation.2.1 _ _ _ (by decide) (by decide),
   c6_config_validation.2.2.1 _ _ _ (by decide) (by decide) (by decide),
   c6_config_validation.2.2.2 "gazprombank".data⟩

/-! ## Helper lemmas: the sravni page loop -/

/-- Every page recorded in the fetch trace starting from `page` is at least
`page`. -/
theorem sravni_loop_trace_ge (fromisoformat : List Char → Option Int)
    (fetch : Nat → SravniResponse) (page_size : Int) (start_date : Option Int)
    (bank_name slug : List Char) :
    ∀ fuel page acc q,
      q ∈ (sravni_pages_loop fromisoformat fetch page_size start_date
            bank_name slug fuel page acc).2 → page ≤ q := by
  intro fuel
  induction fuel with
  | zero =>
    intro page acc q hq
    simp [sravni_pages_loop] at hq
  | succ n ih =>
    intro page acc q hq
    rw [sravni_pages_loop] at hq
    cases hf : fetch page with
    | http code =>
      by_cases h429 : code = 429
      · simp [hf, h429] at hq
        rcases hq with rfl | hq2
        · exact Nat.le_refl q
        · exact Nat.le_of_succ_le (ih (page + 1) acc q hq2)
      · simp [hf, h429] at hq
        exact hq ▸ Nat.le_refl page
    | invalidJson =>
      simp [hf] at hq
      exact hq ▸ Nat.le_refl page
    | ok items =>
      by_cases hempty : items.isEmpty
      · simp [hf, hempty] at hq
        exact hq ▸ Nat.le_refl page
      · by_cases hstop :
          (process_review_items fromisoformat start_date bank_name slug items).2 = true
        · simp [hf, hempty, hstop] at hq
          exact hq ▸ Nat.le_refl page
        · by_cases hshort : (items.length : Int) < page_size
          · simp [hf, hempty, hstop, hshort] at hq
            exact hq ▸ Nat.le_refl page
          · simp [hf, hempty, hstop, hshort] at hq
            rcases hq with rfl | hq2
            · exact Nat.le_refl q
            · exact Nat.le_of_succ_le (ih (page + 1) _ q hq2)

/-- The fetch trace is strictly increasing: no page index is ever fetched twice
within one job (in particular a throttled page is skipped, not retried). -/
theorem sravni_loop_trace_chain (fromisoformat : List Char → Option Int)
    (fetch : Nat → SravniResponse) (page_size : Int) (start_date : Option Int)
    (bank_name slug : List Char) :
    ∀ fuel page acc,
      List.Chain' (· < ·)
        ((sravni_pages_loop fromisoformat fetch page_size start_date
          bank_name slug fuel page acc).2) := by
  intro fuel
  induction fuel with
  | zero =>
    intro page acc
    simp [sravni_pages_loop]
  | succ n ih =>
    intro page acc
    rw [sravni_pages_loop]
    cases hf : fetch page with
    | http code =>
      by_cases h429 : code = 429
      · simp only [hf, h429, if_pos]
        refine List.chain'_cons'.mpr ⟨?_, ih (page + 1) acc⟩
        intro b hb
        have hmem := List.mem_of_mem_head? hb
        have := sravni_loop_trace_ge fromisoformat fetch page_size start_date
          bank_name slug n (page + 1) acc b hmem
        omega
      · simp [hf, h429]
    | invalidJson => simp [hf]
    | ok items =>
      by_cases hempty : items.isEmpty
      · simp [hf, hempty]
      · by_cases hstop :
          (process_review_items fromisoformat start_date bank_name slug items).2 = true
        · simp [hf, hempty, hstop]
        · by_cases hshort : (items.length : Int) < page_size
          · simp [hf, hempty, hstop, hshort]
          · simp only [hf, hempty, hstop, hshort, if_neg, Bool.false_eq_true,
              not_false_iff]
            refine List.chain'_cons'.mpr ⟨?_, ?_⟩
            · intro b hb
              have hmem := List.mem_of_mem_head? hb
              have := sravni_loop_trace_ge fromisoformat fetch page_size start_date
                bank_name slug n (page + 1) _ b hmem
              omega
            · exact ih (page + 1) _

/-- Per-row date guarantee of `_process_review_items`: the parse of a produced
row's stored date equals the parse of the item's date. -/
theorem row_date_parse_eq (fromisoformat : List Char → Option Int)
    (slug bank_name : List Char) (it : SravniItem) :
    sravni_parse_datetime fromisoformat
        (some ((sravni_row_of_item slug bank_name it).review_date))
      = sravni_parse_datetime fromisoformat it.date := by
  cases hd : it.date with
  | none => simp [sravni_row_of_item, sravni_parse_datetime, hd]
  | some s => simp [sravni_row_of_item, sravni_parse_datetime, hd]

/-- `_process_review_items` computed in closed form: the rows are the mapped
prefix of items not older than the threshold, and the stop flag reports whether
an older item exists. -/
theorem process_review_items_spec (fromisoformat : List Char → Option Int)
    (start_date : Option Int) (bank_name slug : List Char) :
    ∀ items, process_review_items fromisoformat start_date bank_name slug items
      = ((items.takeWhile (fun it =>
            !older_than start_date (sravni_parse_datetime fromisoformat it.date))).map
          (sravni_row_of_item slug bank_name),
         items.any (fun it =>
            older_than start_date (sravni_parse_datetime fromisoformat it.date))) := by
  intro items
  induction items with
  | nil => simp [process_review_items]
  | cons it rest ih =>
    by_cases hold :
        older_than start_date (sravni_parse_datetime fromisoformat it.date) = true
    · simp [process_review_items, hold, List.takeWhile_cons, List.any_cons]
    · have hold' :
          older_than start_date (sravni_parse_datetime fromisoformat it.date) = false := by
        simpa using hold
      simp [process_review_items, hold', List.takeWhile_cons, List.any_cons, ih]

/-- No produced row is strictly older than the threshold. -/
theorem process_rows_not_older (fromisoformat : List Char → Option Int)
    (start_date : Option Int) (bank_name slug : List Char) (items : List SravniItem) :
    ∀ r ∈ (process_review_items fromisoformat start_date bank_name slug items).1,
      older_than start_date
        (sravni_parse_datetime fromisoformat (some r.review_date)) = false := by
  intro r hr
  rw [process_review_items_spec] at hr
  simp only [List.mem_map] at hr
  obtain ⟨it, hit, rfl⟩ := hr
  have hpred := List.mem_takeWhile_imp hit
  rw [row_date_parse_eq]
  simpa using hpred

/-- The loop only accumulates rows that satisfy the date guarantee. -/
theorem sravni_loop_rows_prop (fromisoformat : List Char → Option Int)
    (fetch : Nat → SravniResponse) (page_size : Int) (start_date : Option Int)
    (bank_name slug : List Char) :
    ∀ fuel page acc rows,
      (∀ r ∈ acc, older_than start_date
        (sravni_parse_datetime fromisoformat (some r.review_date)) = false) →
      (sravni_pages_loop fromisoformat fetch page_size start_date
        bank_name slug fuel page acc).1 = .ok rows →
      ∀ r ∈ rows, older_than start_date
        (sravni_parse_datetime fromisoformat (some r.review_date)) = false := by
  intro fuel
  induction fuel with
  | zero =>
    intro page acc rows hacc hok
    replace hok : Except.ok acc = Except.ok rows := hok
    cases hok
    exact hacc
  | succ n ih =>
    intro page acc rows hacc hok
    rw [sravni_pages_loop] at hok
    cases hf : fetch page with
    | http code =>
      by_cases h429 : code = 429
      · simp only [hf, h429, if_pos] at hok
        exact ih (page + 1) acc rows hacc hok
      · simp [hf, h429] at hok
    | invalidJson => simp [hf] at hok
    | ok items =>
      have hacc2 : ∀ r ∈ acc ++
          (process_review_items fromisoformat start_date bank_name slug items).1,
          older_than start_date
            (sravni_parse_datetime fromisoformat (some r.review_date)) = false := by
        intro r hr
        rcases List.mem_append.mp hr with h | h
        · exact hacc r h
        · exact process_rows_not_older fromisoformat start_date bank_name slug items r h
      by_cases hempty : items.isEmpty
      · simp only [hf, hempty, if_pos] at hok
        replace hok : Except.ok acc = Except.ok rows := hok
        cases hok
        exact hacc
      · by_cases hstop :
            (process_review_items fromisoformat start_date bank_name slug items).2 = true
        · simp only [hf, hempty, hstop, Bool.false_eq_true, if_neg, if_pos,
            not_false_iff] at hok
          replace hok : Except.ok (acc ++
              (process_review_items fromisoformat start_date bank_name slug items).1)
              = Except.ok rows := hok
          cases hok
          exact hacc2
        · by_cases hshort : (items.length : Int) < page_size
          · simp only [hf, hempty, hstop, hshort, Bool.false_eq_true, if_neg, if_pos,
              not_false_iff] at hok
            replace hok : Except.ok (acc ++
                (process_review_items fromisoformat start_date bank_name slug items).1)
                = Except.ok rows := hok
            cases hok
            exact hacc2
          · simp only [hf, hempty, hstop, hshort, Bool.false_eq_true, if_neg,
              not_false_iff] at hok
            exact ih (page + 1) _ rows hacc2 hok

/-- The shape of a successful sravni job: the literal source id, the
undeduplicated row count, and the rows as produced by the page loop from page 0
with an empty accumulator. -/
theorem parse_gazprombank_ok_shape (fromisoformat : List Char → Option Int)
    (fetch : Nat → SravniResponse) (cfg : SravniConfig) (res : ParseResultM)
    (h : (parse_gazprombank_reviews fromisoformat fetch cfg).1 = .ok res) :
    res.source = "gazprombank_reviews".data
  ∧ res.rows_written = res.rows.length
  ∧ (sravni_pages_loop fromisoformat fetch cfg.page_size cfg.start_date
      (str_or cfg.bank_name "Газпромбанк".data) (str_or cfg.bank_slug "gazprombank".data)
      cfg.max_pages.toNat 0 []).1 = .ok res.rows := by
  rw [parse_gazprombank_reviews] at h
  split at h
  · simp at h
  · split at h
    · simp at h
    · split at h
      · simp at h
      · cases hl : sravni_pages_loop fromisoformat fetch cfg.page_size cfg.start_date
            (str_or cfg.bank_name "Газпромбанк".data)
            (str_or cfg.bank_slug "gazprombank".data) cfg.max_pages.toNat 0 [] with
        | mk first trace =>
          rw [hl] at h
          cases first with
          | error e => simp at h
          | ok parsed_rows =>
            replace h : sravni_finalize cfg.output_filename
                (str_or cfg.bank_slug "gazprombank".data) parsed_rows = .ok res := h
            rw [sravni_finalize] at h
            split at h
            · cases h
            · cases he : ensure_csv_filename (str_or cfg.output_filename
                  ("sravni_reviews_".data ++ (str_or cfg.bank_slug "gazprombank".data)
                    ++ ".csv".data)) with
              | error e => rw [he] at h; cases h
              | ok filename =>
                rw [he] at h
                cases h
                exact ⟨rfl, rfl, rfl⟩

/-! ## Helper lemmas: the banki.ru retry loop -/

/-- Under constant throttling every attempt is consumed and the budget is
exhausted. -/
theorem fetch_banki_aux_throttled (resp : Nat → BankiResponse) (page : Nat)
    (h : ∀ attempt, resp attempt = BankiResponse.http 429) :
    ∀ fuel used, fetch_banki_page_aux resp page fuel used
      = (.error (.banki_fetch_exhausted page), used + fuel) := by
  intro fuel
  induction fuel with
  | zero => intro used; simp [fetch_banki_page_aux]
  | succ n ih =>
    intro used
    have hstep : fetch_banki_page_aux resp page (n + 1) used
        = fetch_banki_page_aux resp page n (used + 1) := by
      rw [fetch_banki_page_aux, h (used + 1)]
      simp
    rw [hstep, ih (used + 1)]
    simp only [Prod.mk.injEq]
    exact ⟨trivial, by omega⟩

/-! ## Claim C7 — the start_date threshold -/

/-- C7: (i) in every successful sravni job with a start_date threshold, every
persisted row whose date string parses has a parsed date at or after the
threshold; (ii) item mapping is the prefix of items before the first
strictly-older one, and the stop flag is signalled exactly when such an item
exists; (iii) the banki.ru row builder excludes a strictly-older row and signals
the stop. -/
theorem c7_start_date_threshold :
    (∀ fromisoformat fetch cfg t res, cfg.start_date = some t →
        (parse_gazprombank_reviews fromisoformat fetch cfg).1 = .ok res →
        ∀ r ∈ res.rows, ∀ d,
          sravni_parse_datetime fromisoformat (some r.review_date) = some d → t ≤ d)
  ∧ (∀ fromisoformat start_date bank_name slug (items : List SravniItem),
        process_review_items fromisoformat start_date bank_name slug items
          = ((items.takeWhile (fun it =>
                !older_than start_date (sravni_parse_datetime fromisoformat it.date))).map
              (sravni_row_of_item slug bank_name),
             items.any (fun it =>
                older_than start_date (sravni_parse_datetime fromisoformat it.date))))
  ∧ (∀ strptime isoformat normalize_text (it : BankiItem) meta slug bank_name t
        status_text d,
        banki_parse_datetime strptime it.dateCreate = some d → d < t →
        banki_build_row strptime isoformat normalize_text it meta slug bank_name
          (some t) status_text = (none, true)) := by
  refine ⟨?_, ?_, ?_⟩
  · intro fromisoformat fetch cfg t res hsd hok r hr d hd
    obtain ⟨-, -, hloop⟩ := parse_gazprombank_ok_shape fromisoformat fetch cfg res hok
    have hprop := sravni_loop_rows_prop fromisoformat fetch cfg.page_size
      cfg.start_date (str_or cfg.bank_name "Газпромбанк".data)
      (str_or cfg.bank_slug "gazprombank".data) cfg.max_pages.toNat 0 [] res.rows
      (by intro r2 hr2; cases hr2) hloop r hr
    rw [hsd, hd] at hprop
    simp only [older_than, decide_eq_false_iff_not, not_lt] at hprop
    exact hprop
  · intro fromisoformat start_date bank_name slug items
    exact process_review_items_spec fromisoformat start_date bank_name slug items
  · intro strptime isoformat normalize_text it meta slug bank_name t status_text d hd hlt
    rw [banki_build_row, hd]
    rw [if_pos (by simp [older_than, hlt])]

/-- C7, witness: a one-page job whose single item parses to day 5 against a
threshold of day 3 — the theorem yields `3 ≤ 5` at the persisted row; the banki
conjunct fires on a row parsed to day 2 against the same threshold. -/
theorem c7_witness :
    ((3 : Int) ≤ 5)
  ∧ banki_build_row (fun _ => some 2) (fun _ => []) (fun s => s)
      { id := none, dateCreate := "x".data, text := [], title := [], grade := []
      , agentAnswerText := [], isCountable := none }
      { author := [], description := [], name := [], ratingValue := [] }
      "gazprombank".data "b".data (some 3) [] = (none, true) :=
  ⟨c7_start_date_threshold.1 demo_fromiso (fun _ => SravniResponse.ok [demo_dated_item])
      { demo_cfg with max_pages := 1, start_date := some 3 } 3
      { source := "gazprombank_reviews".data
      , filename := "sravni_reviews_gazprombank.csv".data
      , rows_written := 1, rows := [demo_row] } rfl (by rfl)
      demo_row (List.mem_cons_self _ _) 5 (by rfl),
   c7_start_date_threshold.2.2 _ _ _ _ _ _ _ _ _ 2 (by rfl) (by decide)⟩

/-! ## Claim C1 — deduplication and rows_written -/

/-- C1, counterexample.  A completed sravni job whose two pages return the same
review persists both copies: `rows_written = 2`, the deduplicated set has size 1,
and the two persisted rows share the dedup key `("id", "A1")` — the sravni path
never calls a deduplicator, against the claim that every completed job satisfies
`rows_written == |dedup(rows)|` with pairwise-distinct keys. -/
theorem c1_counterexample :
    (except_ok? (parse_gazprombank_reviews (fun _ => none)
        (fun _ => SravniResponse.ok [demo_item]) demo_cfg).1).map
      (fun r => (r.rows_written, (deduplicate_rows r.rows).length, r.rows.map dedup_key))
      = some (2, 1, [DedupKey.by_id "A1".data, DedupKey.by_id "A1".data]) := by decide

/-- C1, amended: the dedup invariant holds on the banki.ru path — a successful
`parse_reviews` persists exactly `_deduplicate_rows(parsed_rows)`, whose length is
`rows_written`, whose rows have pairwise-distinct dedup keys, which is a
first-seen-preserving sublist of the parsed rows, and which covers every parsed
row's key; the sravni path persists its rows undeduplicated, with `rows_written`
equal to the raw row count. -/
theorem c1_dedup_invariant :
    (∀ output_filename slug parsed_rows res,
        banki_finalize output_filename slug parsed_rows = .ok res →
        res.rows = deduplicate_rows parsed_rows
      ∧ res.rows_written = res.rows.length
      ∧ List.Pairwise (fun a b => dedup_key a ≠ dedup_key b) res.rows
      ∧ List.Sublist res.rows parsed_rows
      ∧ ∀ r ∈ parsed_rows, ∃ r2 ∈ res.rows, dedup_key r2 = dedup_key r)
  ∧ (∀ fromisoformat fetch cfg res,
        (parse_gazprombank_reviews fromisoformat fetch cfg).1 = .ok res →
        res.rows_written = res.rows.length) := by
  constructor
  · intro output_filename slug parsed_rows res h
    rw [banki_finalize] at h
    split at h
    · cases h
    · cases he : ensure_csv_filename (str_or output_filename
          ("banki_ru_reviews_".data ++ slug ++ ".csv".data)) with
      | error e => rw [he] at h; cases h
      | ok filename =>
        rw [he] at h
        cases h
        refine ⟨rfl, rfl, deduplicate_rows_aux_pairwise parsed_rows [],
          deduplicate_rows_aux_sublist parsed_rows [], ?_⟩
        intro r hr
        rcases deduplicate_rows_aux_covers parsed_rows [] r hr with h2 | h2
        · simp [List.contains] at h2
        · exact h2
  · intro fromisoformat fetch cfg res h
    exact (parse_gazprombank_ok_shape fromisoformat fetch cfg res h).2.1

/-- C1, witness: the banki.ru invariant at a finalisation of two copies of one
row, which dedup collapses to one; the sravni conjunct at a successful one-page
job. -/
theorem c1_witness :
    (deduplicate_rows [demo_row, demo_row] = [demo_row]
      ∧ (1 : Nat) = 1)
  ∧ ((1 : Nat) = 1) :=
  ⟨(by
      have h := c1_dedup_invariant.1 none "gazprombank".data [demo_row, demo_row]
        { source := "banki_ru".data
        , filename := "banki_ru_reviews_gazprombank.csv".data
        , rows_written := 1, rows := [demo_row] } (by rfl)
      exact ⟨h.1.symm ▸ (by rfl), rfl⟩),
   (by
      have h := c1_dedup_invariant.2 demo_fromiso
        (fun _ => SravniResponse.ok [demo_dated_item])
        { demo_cfg with max_pages := 1 }
        { source := "gazprombank_reviews".data
        , filename := "sravni_reviews_gazprombank.csv".data
        , rows_written := 1, rows := [demo_row] } (by rfl)
      simp)⟩

/-! ## Claim C3 — HTTP 429 handling -/

/-- C3, counterexample.  With page 0 throttled (429) and page 1 healthy, the
sravni controller's fetch trace is `[0, 1]`: after the 60s sleep it moves to page
1 and never re-fetches page 0 — the page index advances, against the claim that
the same page is retried.  And the banki.ru fetcher under constant 429 consumes
its whole 6-attempt retry budget and fails — a 429 does consume a retry attempt. -/
theorem c3_counterexample :
    (parse_gazprombank_reviews (fun _ => none)
        (fun p => if p = 0 then SravniResponse.http 429 else SravniResponse.ok [demo_item])
        demo_cfg).2 = [0, 1]
  ∧ except_err? (fetch_banki_page (fun _ => BankiResponse.http 429) 1 6).1
      = some (PErr.banki_fetch_exhausted 1)
  ∧ (fetch_banki_page (fun _ => BankiResponse.http 429) 1 6).2 = 6 := by
  refine ⟨?_, ?_, ?_⟩ <;> decide

/-- C3, amended: on HTTP 429 the sravni parser sleeps and then moves on to the
next page index — across a whole job no page index is ever fetched twice (the
fetch trace is strictly increasing); the banki.ru fetcher retries the same page
URL after its 60s sleep but consumes one of its retry attempts per 429, so a
constant-429 page exhausts the whole budget and fails. -/
theorem c3_throttle_behavior :
    (∀ fromisoformat fetch page_size start_date bank_name slug fuel page acc,
        List.Chain' (· < ·)
          ((sravni_pages_loop fromisoformat fetch page_size start_date
            bank_name slug fuel page acc).2))
  ∧ (∀ resp page max_retries, (∀ attempt, resp attempt = BankiResponse.http 429) →
        fetch_banki_page resp page max_retries
          = (.error (.banki_fetch_exhausted page), max_retries)) := by
  constructor
  · intro fromisoformat fetch page_size start_date bank_name slug fuel page acc
    exact sravni_loop_trace_chain fromisoformat fetch page_size start_date
      bank_name slug fuel page acc
  · intro resp page max_retries h
    rw [fetch_banki_page, fetch_banki_aux_throttled resp page h max_retries 0]
    simp

/-- C3, witness: the strict trace on a concrete throttled run, and budget
exhaustion under constant 429 at 6 retries. -/
theorem c3_witness :
    List.Chain' (· < ·)
      ((sravni_pages_loop (fun _ => none)
        (fun p => if p = 0 then SravniResponse.http 429 else SravniResponse.ok [demo_item])
        1 none "Газпромбанк".data "gazprombank".data 2 0 []).2)
  ∧ fetch_banki_page (fun _ => BankiResponse.http 429) 0 6
      = (.error (.banki_fetch_exhausted 0), 6) :=
  ⟨c3_throttle_behavior.1 _ _ _ _ _ _ 2 0 [],
   c3_throttle_behavior.2 _ 0 6 (fun _ => rfl)⟩

/-! ## Claim C9 — the route always runs the sravni parser -/

/-- C9: `run_parser_job` produces a result whose `source` is
`"gazprombank_reviews"` whenever it succeeds — it invokes the sravni parser for
every job — and its outcome does not depend on the job's `source` discriminator
at all. -/
theorem c9_route_ignores_source :
    (∀ fromisoformat fetch job res,
        run_parser_job fromisoformat fetch job = .ok res →
        res.source = "gazprombank_reviews".data)
  ∧ (∀ fromisoformat fetch (job : ParseJobRequest) (s1 s2 : ParserSource),
        run_parser_job fromisoformat fetch { job with source := s1 }
          = run_parser_job fromisoformat fetch { job with source := s2 }) := by
  constructor
  · intro fromisoformat fetch job res h
    rw [run_parser_job] at h
    cases hp : (parse_gazprombank_reviews fromisoformat fetch
        { page_size := job.page_size, max_pages := job.max_pages
        , start_date := job.start_date, bank_slug := none, bank_name := none
        , output_filename := job.output_filename, finger_print := job.finger_print
        , min_delay := job.min_delay, max_delay := job.max_delay }).1 with
    | error e => rw [hp] at h; cases h
    | ok r =>
      rw [hp] at h
      cases h
      exact (parse_gazprombank_ok_shape _ _ _ r hp).1
  · intro fromisoformat fetch job s1 s2
    rfl

/-- C9, witness: a job submitted with `source = banki_ru` still succeeds through
the sravni parser, and its result's source reads `gazprombank_reviews`. -/
theorem c9_witness :
    ({ source := "gazprombank_reviews".data
     , filename := "sravni_reviews_gazprombank.csv".data
     , rows_written := 1, rows := [demo_row] } : ParseJobResult).source
      = "gazprombank_reviews".data :=
  c9_route_ignores_source.1 demo_fromiso (fun _ => SravniResponse.ok [demo_dated_item])
    { source := .banki_ru, page_size := 1, max_pages := 1, start_date := none
    , min_delay := 1, max_delay := 2, finger_print := none, output_filename := none }
    { source := "gazprombank_reviews".data
    , filename := "sravni_reviews_gazprombank.csv".data
    , rows_written := 1, rows := [demo_row] } (by rfl)

/-! ## Helper lemmas: micro-batching and index re-ordering -/

theorem sort_by_index_perm {α : Type u_1} (l : List (Nat × α)) :
    List.Perm (sort_by_index l) l :=
  List.perm_insertionSort key_le l

theorem sort_by_index_length {α : Type u_1} (l : List (Nat × α)) :
    (sort_by_index l).length = l.length :=
  (sort_by_index_perm l).length_eq

/-- Re-joining the `texts[start:start+batch_size]` chunks gives back the texts. -/
theorem chunk_list_flatten (bs_pred : Nat) :
    ∀ (l : List α), (chunk_list bs_pred l).flatten = l
  | [] => by simp [chunk_list]
  | x :: xs => by
    rw [chunk_list, List.flatten_cons,
      chunk_list_flatten bs_pred ((x :: xs).drop (bs_pred + 1))]
    exact List.take_append_drop _ _
termination_by l => l.length
decreasing_by simp; omega

/-- A non-empty input no longer than the batch size forms a single chunk. -/
theorem chunk_list_singleton (bs_pred : Nat) (l : List α) (h0 : l ≠ [])
    (hle : l.length ≤ bs_pred + 1) : chunk_list bs_pred l = [l] := by
  cases l with
  | nil => exact absurd rfl h0
  | cons x xs =>
    rw [chunk_list, List.take_of_length_le hle, List.drop_eq_nil_of_le hle]
    simp [chunk_list]

theorem flatten_map_replicate_none {α : Type u_1} (ls : List (List (List Char))) :
    ((ls.map (fun c => List.replicate c.length (none : Option α))).flatten)
      = List.replicate ((ls.map List.length).sum) none := by
  induction ls with
  | nil => simp
  | cons c rest ih =>
    rw [List.map_cons, List.flatten_cons, ih, List.map_cons, List.sum_cons,
      List.replicate_add]

/-- The flattened per-chunk blocks have one slot per input text. -/
theorem embeddings_body_length {α : Type u_1} (batch_size : Nat)
    (create_embeddings : List (List Char) → Option (List (Nat × α)))
    (texts : List (List Char))
    (hlen : ∀ chunk data, create_embeddings chunk = some data →
        data.length = chunk.length) :
    (embeddings_body batch_size create_embeddings texts).length = texts.length := by
  rw [embeddings_body, List.length_flatten, List.map_map]
  have hmap : ((chunk_list (max 1 batch_size - 1) texts).map
      (List.length ∘ chunk_block create_embeddings))
      = (chunk_list (max 1 batch_size - 1) texts).map List.length := by
    apply List.map_congr_left
    intro c _
    simp only [Function.comp]
    cases hcc : create_embeddings c with
    | none => simp [chunk_block, hcc]
    | some data => simp [chunk_block, hcc, sort_by_index_length, hlen c data hcc]
  rw [hmap, ← List.length_flatten, chunk_list_flatten]

/-- Sorting a response whose declared indices are a permutation of `0..n-1` puts
index `i` at position `i`. -/
theorem sorted_map_fst_eq_range {α : Type u_1} (data : List (Nat × α)) (n : Nat)
    (hperm : List.Perm (data.map Prod.fst) (List.range n)) :
    (sort_by_index data).map Prod.fst = List.range n := by
  have hp : List.Perm ((sort_by_index data).map Prod.fst) (List.range n) :=
    ((sort_by_index_perm data).map Prod.fst).trans hperm
  have hs1 : List.Sorted (· ≤ ·) ((sort_by_index data).map Prod.fst) := by
    have hsorted : List.Sorted key_le (sort_by_index data) :=
      List.sorted_insertionSort key_le data
    exact List.Pairwise.map Prod.fst (fun a b h => h) hsorted
  have hs2 : List.Sorted (· ≤ ·) (List.range n) :=
    List.Pairwise.imp (fun h => Nat.le_of_lt h) (List.sorted_lt_range n)
  exact List.eq_of_perm_of_sorted hp hs1 hs2

/-! ## Claim C2 — embedding batch length, nulls and alignment -/

/-- C2: with an embedding API that returns one item per input on success,
(i) the returned vector list has exactly one entry per input text;
(ii) if every batch call throws, the result is all nulls (never an error to the
caller); (iii) for a single-batch call whose response indices are a permutation
of 0..n-1, position `i` of the result carries exactly the vector the API declared
for index `i`, whatever order the API returned them in; (iv) the
`EmbeddingBatcher._runner` dispatch resolves a throwing batch call to
`[None] * len(batch)`. -/
theorem c2_embedding_batches {α : Type} (has_key : Bool) (batch_size : Nat)
    (create_embeddings : List (List Char) → Option (List (Nat × α)))
    (texts : List (List Char))
    (hlen : ∀ chunk data, create_embeddings chunk = some data →
        data.length = chunk.length) :
    (generate_embeddings_async has_key batch_size create_embeddings texts).length
        = texts.length
  ∧ ((∀ chunk, create_embeddings chunk = none) →
      generate_embeddings_async has_key batch_size create_embeddings texts
        = List.replicate texts.length none)
  ∧ (∀ data, has_key = true → texts ≠ [] → texts.length ≤ max 1 batch_size →
      create_embeddings texts = some data →
      List.Perm (data.map Prod.fst) (List.range texts.length) →
      ∀ i, i < texts.length →
        ∃ v, (generate_embeddings_async has_key batch_size create_embeddings texts)[i]?
              = some (some v) ∧ (i, v) ∈ data)
  ∧ (∀ (call : List (List Char) → Except Unit (List (Option α))) batch e,
      call batch = .error e →
      runner_dispatch call batch = List.replicate batch.length none) := by
  refine ⟨?_, ?_, ?_, ?_⟩
  · by_cases hemp : texts.isEmpty
    · rw [generate_embeddings_async, if_pos hemp]
      have h0 : texts = [] := by simpa [List.isEmpty_iff] using hemp
      rw [h0]
      rfl
    · by_cases hk : has_key = true
      · rw [generate_embeddings_async, if_neg hemp, if_neg (by simp [hk])]
        rw [List.length_append, List.length_replicate,
          embeddings_body_length batch_size create_embeddings texts hlen]
        omega
      · have hk' : has_key = false := by simpa using hk
        rw [generate_embeddings_async, if_neg hemp, if_pos (by simp [hk'])]
        exact List.length_replicate _ _
  · intro hfail
    by_cases hemp : texts.isEmpty
    · rw [generate_embeddings_async, if_pos hemp]
      have h0 : texts = [] := by simpa [List.isEmpty_iff] using hemp
      rw [h0]
      rfl
    · by_cases hk : has_key = true
      · rw [generate_embeddings_async, if_neg hemp, if_neg (by simp [hk])]
        have hbody : embeddings_body batch_size create_embeddings texts
            = List.replicate texts.length (none : Option α) := by
          rw [embeddings_body]
          have hmap : ((chunk_list (max 1 batch_size - 1) texts).map
              (chunk_block create_embeddings))
              = (chunk_list (max 1 batch_size - 1) texts).map
                  (fun c => List.replicate c.length (none : Option α)) := by
            apply List.map_congr_left
            intro c _
            rw [chunk_block, hfail c]
          rw [hmap, flatten_map_replicate_none]
          have hsum : ((chunk_list (max 1 batch_size - 1) texts).map List.length).sum
              = texts.length := by
            rw [← List.length_flatten, chunk_list_flatten]
          rw [hsum]
        rw [hbody]
        simp
      · have hk' : has_key = false := by simpa using hk
        rw [generate_embeddings_async, if_neg hemp, if_pos (by simp [hk'])]
  · intro data hk hne hle hapi hperm i hi
    have hchunks : chunk_list (max 1 batch_size - 1) texts = [texts] := by
      apply chunk_list_singleton _ _ hne
      have h1 : 1 ≤ max 1 batch_size := le_max_left 1 batch_size
      omega
    have hdlen : data.length = texts.length := by
      have h2 := hperm.length_eq
      simpa using h2
    have hslen : (sort_by_index data).length = texts.length := by
      rw [sort_by_index_length]
      exact hdlen
    have hbody : embeddings_body batch_size create_embeddings texts
        = (sort_by_index data).map (fun p => some p.2) := by
      rw [embeddings_body, hchunks, List.map_cons, List.map_nil, List.flatten_cons,
        List.flatten_nil, List.append_nil, chunk_block, hapi]
    have hres : generate_embeddings_async has_key batch_size create_embeddings texts
        = (sort_by_index data).map (fun p => some p.2) := by
      rw [generate_embeddings_async, if_neg (by simpa [List.isEmpty_iff] using hne),
        if_neg (by simp [hk]), hbody]
      simp [hslen]
    have hib : i < (sort_by_index data).length := by omega
    refine ⟨((sort_by_index data).get ⟨i, hib⟩).2, ?_, ?_⟩
    · rw [hres, List.getElem?_map,
        (List.getElem?_eq_some_getElem_iff (sort_by_index data) i hib).mpr trivial]
      rfl
    · have hfst := sorted_map_fst_eq_range data texts.length hperm
      have hp1 : ((sort_by_index data).get ⟨i, hib⟩).1 = i := by
        have h3 := congrArg (fun l => l[i]?) hfst
        simp only [List.getElem?_map,
          (List.getElem?_eq_some_getElem_iff (sort_by_index data) i hib).mpr trivial,
          List.getElem?_range hi, Option.map_some] at h3
        exact Option.some.inj h3
      have hmem : (sort_by_index data).get ⟨i, hib⟩ ∈ sort_by_index data :=
        List.get_mem (sort_by_index data) i hib
      have hmem2 : (sort_by_index data).get ⟨i, hib⟩ ∈ data :=
        (sort_by_index_perm data).mem_iff.mp hmem
      have heta : (i, ((sort_by_index data).get ⟨i, hib⟩).2)
          = (sort_by_index data).get ⟨i, hib⟩ :=
        Prod.ext_iff.mpr ⟨hp1.symm, rfl⟩
      rw [heta]
      exact hmem2
  · intro call batch e hcall
    rw [runner_dispatch, hcall]

/-- C2, witness: a two-text single batch against an API double that answers with
indices reversed; position 0 of the result carries the vector declared for
index 0. -/
theorem c2_witness :
    ∃ v, (generate_embeddings_async true 2 demo_api ["a".data, "b".data])[0]?
        = some (some v) ∧ ((0 : Nat), v) ∈ [((1 : Nat), (1 : Nat)), (0, 0)] :=
  (c2_embedding_batches true 2 demo_api ["a".data, "b".data]
      (fun chunk data h => by cases h; simp)).2.2.1
    [(1, 1), (0, 0)] rfl (by decide) (by decide) (by rfl) (by decide) 0 (by decide)

end LCT
